import Mathlib

/-!
# Game of Life engine (`src/main.c`): shallow embedding and verified properties

The C program keeps two bit-packed buffers of `unsigned int` words and an
`int current_buffer` selecting the active one.  The embedding below follows
the C source function by function.

Conventions of the embedding:

* values of type `int` are `Int`, values of type `unsigned int` are `Nat`;
  every conversion the C language performs implicitly is written out
  (`toInt`, `toUInt`, `toSizeT`), signed results being wrapped to 32 bits;
* the global `cells_buffers[2][CELLULAR_AUTOMATA_SIZE]` is a map from buffer
  number and word index to the word stored there, and the whole mutable
  state is passed explicitly (`State`);
* `for` loops over `0 .. n-1` are left folds over `List.range n`.
-/

namespace GameOfLife

/-! ## Machine integers -/

/-- Conversion of an integer value to `unsigned int` (32 bits). -/
def toUInt (v : Int) : Nat := (v % 4294967296).toNat

/-- Conversion of an integer value to `int` (32 bits, two's complement wrap). -/
def toInt (v : Int) : Int := (v + 2147483648) % 4294967296 - 2147483648

/-- Conversion of an integer value to `size_t` (64 bits), the type of `sizeof`. -/
def toSizeT (v : Int) : Nat := (v % 18446744073709551616).toNat

/-- Result of a signed `int` operation whose exact value is `v`: defined only
when `v` is representable, since signed overflow has no defined result in C. -/
def checkedInt (v : Int) : Option Int :=
  if -2147483648 ≤ v ∧ v < 2147483648 then some v else none

/-- C comparison `a == b`, of type `int`. -/
def c_eq (a b : Int) : Int := if a = b then 1 else 0

/-- C logical `a && b`, of type `int`. -/
def c_and (a b : Int) : Int := if a ≠ 0 ∧ b ≠ 0 then 1 else 0

/-- C logical `a || b`, of type `int`. -/
def c_or (a b : Int) : Int := if a ≠ 0 ∨ b ≠ 0 then 1 else 0

/-! ## Constants of the source -/

abbrev CELLULAR_AUTOMATA_WIDTH : Int := 1000
abbrev CELLULAR_AUTOMATA_HEIGHT : Int := 1000
abbrev CELLULAR_AUTOMATA_NUMBER_CELLS : Int :=
  CELLULAR_AUTOMATA_WIDTH * CELLULAR_AUTOMATA_HEIGHT
abbrev CELLULAR_AUTOMATA_NUM_NEIGHBORS : Int := 8
abbrev DEAD_CELL : Int := 0
abbrev ALIVE_CELL : Int := 1

/-- Macro `BITS_PER_INT`, `sizeof(int) * 8` with a 4-byte `int`; of type `size_t`. -/
abbrev BITS_PER_INT : Nat := 4 * 8

/-- Macro `CELLULAR_AUTOMATA_SIZE`, the number of words of one buffer; the
arithmetic is done in `size_t`. -/
abbrev CELLULAR_AUTOMATA_SIZE : Nat :=
  (toSizeT CELLULAR_AUTOMATA_NUMBER_CELLS + BITS_PER_INT - 1) / BITS_PER_INT

/-- Table `NEIGHBORS_OFFSET[8][2]`. -/
def NEIGHBORS_OFFSET : List (Int × Int) :=
  [(-1, 0), (1, 0), (0, -1), (0, 1), (-1, 1), (1, -1), (-1, -1), (1, 1)]

/-! ## Program state -/

/-- The mutable globals: `cells_buffers b i` is word `i` of buffer `b`, and
`current_buffer` is the number of the active buffer (always 0 or 1 in the
program, hence kept as a natural number). -/
structure State where
  cells_buffers : Nat → Nat → Nat
  current_buffer : Nat

/-- Macro `ACTIVE_CELLS`: `cells_buffers[current_buffer]`. -/
def ACTIVE_CELLS (s : State) : Nat → Nat := s.cells_buffers s.current_buffer

/-- Macro `FUTURE_CELLS`: `cells_buffers[current_buffer ^ 1]`. -/
def FUTURE_CELLS (s : State) : Nat → Nat := s.cells_buffers (s.current_buffer ^^^ 1)

/-- Assignment `cells_buffers[b][i] = v`. -/
def State.store (s : State) (b i v : Nat) : State :=
  { s with cells_buffers := fun b' i' => if b' = b ∧ i' = i then v else s.cells_buffers b' i' }

/-! ## Functions of the source -/

/-- Function `swap_buffer`: `current_buffer ^= 1`. -/
def swap_buffer (s : State) : State :=
  { s with current_buffer := s.current_buffer ^^^ 1 }

/-- Function `get_cell_index`; `%` of C truncates towards zero (`Int.tmod`). -/
def get_cell_index (x y : Int) : Int :=
  let x := Int.tmod (toInt (Int.tmod x CELLULAR_AUTOMATA_WIDTH + CELLULAR_AUTOMATA_WIDTH))
    CELLULAR_AUTOMATA_WIDTH
  let y := Int.tmod (toInt (Int.tmod y CELLULAR_AUTOMATA_HEIGHT + CELLULAR_AUTOMATA_HEIGHT))
    CELLULAR_AUTOMATA_HEIGHT
  toInt (toInt (y * CELLULAR_AUTOMATA_WIDTH) + x)

/-- Function `get_cell_index` with every signed addition and multiplication
checked for overflow: `none` as soon as an exact intermediate value is not
representable in `int`. -/
def get_cell_index_checked (x y : Int) : Option Int := do
  let x1 ← checkedInt (Int.tmod x CELLULAR_AUTOMATA_WIDTH + CELLULAR_AUTOMATA_WIDTH)
  let x := Int.tmod x1 CELLULAR_AUTOMATA_WIDTH
  let y1 ← checkedInt (Int.tmod y CELLULAR_AUTOMATA_HEIGHT + CELLULAR_AUTOMATA_HEIGHT)
  let y := Int.tmod y1 CELLULAR_AUTOMATA_HEIGHT
  let m ← checkedInt (y * CELLULAR_AUTOMATA_WIDTH)
  checkedInt (m + x)

/-- Function `get_bit_index`: the division is done in `size_t`. -/
def get_bit_index (cell_index : Int) : Int :=
  toInt (toSizeT cell_index / BITS_PER_INT : Nat)

/-- Function `get_bit_position`: the remainder is taken in `size_t`. -/
def get_bit_position (cell_index : Int) : Int :=
  toInt (toSizeT cell_index % BITS_PER_INT : Nat)

/-- Function `get_bit_mask`: `1 << position`, wrapped to `int` (for position
31 the result is the sign bit). -/
def get_bit_mask (cell_index : Int) : Int :=
  toInt (1 * 2 ^ (get_bit_position cell_index).toNat)

/-- Function `get_cell_state`: the `int` mask is converted to `unsigned int`
for the `&`. -/
def get_cell_state (s : State) (cell_index : Int) : Int :=
  if ACTIVE_CELLS s (get_bit_index cell_index).toNat &&& toUInt (get_bit_mask cell_index) ≠ 0
  then 1 else 0

/-- Function `get_cell_state` as a state transformer: the value returned
together with the globals after the call (the body has no assignment). -/
def get_cell_state_run (s : State) (cell_index : Int) : Int × State :=
  (get_cell_state s cell_index, s)

/-- Function `set_cell_alive`. -/
def set_cell_alive (s : State) (cell_index : Int) : State :=
  s.store s.current_buffer (get_bit_index cell_index).toNat
    (ACTIVE_CELLS s (get_bit_index cell_index).toNat ||| toUInt (get_bit_mask cell_index))

/-- Function `set_cell_dead`: `~` is applied to the `int` mask (`~m = -m - 1`)
before the conversion to `unsigned int`. -/
def set_cell_dead (s : State) (cell_index : Int) : State :=
  s.store s.current_buffer (get_bit_index cell_index).toNat
    (ACTIVE_CELLS s (get_bit_index cell_index).toNat &&& toUInt (-(get_bit_mask cell_index) - 1))

/-- The blend `(*cell & ~mask) | (-alive & mask)` of `set_cell_state` and
`set_future_cell_state`, with `mask` and `*cell` of type `unsigned int`. -/
def blend (cell mask : Nat) (alive : Int) : Nat :=
  (cell &&& (4294967295 - mask)) ||| (toUInt (toInt (-alive)) &&& mask)

/-- Function `set_cell_state`. -/
def set_cell_state (s : State) (cell_index : Int) (alive : Int) : State :=
  let mask := toUInt (get_bit_mask cell_index)
  s.store s.current_buffer (get_bit_index cell_index).toNat
    (blend (ACTIVE_CELLS s (get_bit_index cell_index).toNat) mask alive)

/-- Function `set_future_cell_state`. -/
def set_future_cell_state (s : State) (cell_index : Int) (alive : Int) : State :=
  let mask := toUInt (get_bit_mask cell_index)
  s.store (s.current_buffer ^^^ 1) (get_bit_index cell_index).toNat
    (blend (FUTURE_CELLS s (get_bit_index cell_index).toNat) mask alive)

/-- Function `cellular_automata_initalize`. -/
def cellular_automata_initalize (s : State) : State :=
  (List.range CELLULAR_AUTOMATA_SIZE).foldl
    (fun s i => s.store s.current_buffer i (toUInt DEAD_CELL)) s

/-- Function `wrap_x`. -/
def wrap_x (x : Int) : Int :=
  if x < 0 then toInt (x + CELLULAR_AUTOMATA_WIDTH)
  else if x ≥ CELLULAR_AUTOMATA_WIDTH then toInt (x - CELLULAR_AUTOMATA_WIDTH)
  else x

/-- Function `wrap_y`. -/
def wrap_y (y : Int) : Int :=
  if y < 0 then toInt (y + CELLULAR_AUTOMATA_HEIGHT)
  else if y ≥ CELLULAR_AUTOMATA_HEIGHT then toInt (y - CELLULAR_AUTOMATA_HEIGHT)
  else y

/-- Function `get_cell_index_fast`. -/
def get_cell_index_fast (x y : Int) : Int :=
  toInt (toInt (wrap_y y * CELLULAR_AUTOMATA_WIDTH) + wrap_x x)

/-- Function `count_alive_neighboring_cells`: `x` and `y` are `unsigned int`,
so `x + NEIGHBORS_OFFSET[i][0]` is an unsigned sum, converted to `int` when
passed to `get_cell_index_fast`. -/
def count_alive_neighboring_cells (s : State) (x y : Nat) : Int :=
  (List.range (toUInt CELLULAR_AUTOMATA_NUM_NEIGHBORS)).foldl
    (fun sum i =>
      toInt (sum + get_cell_state s (get_cell_index_fast
        (toInt (toUInt (x + toUInt (NEIGHBORS_OFFSET.getD i (0, 0)).1)))
        (toInt (toUInt (y + toUInt (NEIGHBORS_OFFSET.getD i (0, 0)).2))))))
    0

/-- The value `(S == 3) || (E == 1 && S == 2)` that `update_cell` passes to
`set_future_cell_state`. -/
def next_cell_state (E S : Int) : Int :=
  c_or (c_eq S 3) (c_and (c_eq E 1) (c_eq S 2))

/-- Function `update_cell`. -/
def update_cell (s : State) (x y : Nat) : State :=
  let idx := get_cell_index (toInt x) (toInt y)
  let S := count_alive_neighboring_cells s x y
  let E := get_cell_state s idx
  set_future_cell_state s idx (next_cell_state E S)

/-- Function `cellular_automata_update`. -/
def cellular_automata_update (s : State) : State :=
  swap_buffer
    ((List.range (toUInt CELLULAR_AUTOMATA_HEIGHT)).foldl
      (fun s y =>
        (List.range (toUInt CELLULAR_AUTOMATA_WIDTH)).foldl (fun s x => update_cell s x y) s)
      s)

/-- Function `setup_oscillator`. -/
def setup_oscillator (s : State) : State :=
  let s := set_cell_alive s (get_cell_index 4 5)
  let s := set_cell_alive s (get_cell_index 5 5)
  set_cell_alive s (get_cell_index 6 5)

/-- Function `setup_ship`. -/
def setup_ship (s : State) : State :=
  let s := set_cell_alive s (get_cell_index 11 10)
  let s := set_cell_alive s (get_cell_index 12 11)
  let s := set_cell_alive s (get_cell_index 10 12)
  let s := set_cell_alive s (get_cell_index 11 12)
  set_cell_alive s (get_cell_index 12 12)

/-! ## Specification-side definitions and proof vocabulary -/

/-- Bit of cell number `i` in a buffer of 32-bit words. -/
def cellBit (buf : Nat → Nat) (i : Nat) : Bool := (buf (i / 32)).testBit (i % 32)

/-- The value `update_cell` computes for cell `(x, y)` from the state `s`. -/
def nextValue (s : State) (x y : Nat) : Int :=
  next_cell_state (get_cell_state s (get_cell_index (toInt x) (toInt y)))
    (count_alive_neighboring_cells s x y)

/-- State of the stepper after the first `k` cells, in row-major order, have
been processed starting from `s0`: the active buffer and `current_buffer` are
those of `s0`, and the future buffer holds the next state of these cells. -/
def Processed (s0 : State) (k : Nat) (s : State) : Prop :=
  s.current_buffer = s0.current_buffer ∧ ACTIVE_CELLS s = ACTIVE_CELLS s0 ∧
  ∀ n, n < k → cellBit (FUTURE_CELLS s) n = decide (nextValue s0 (n % 1000) (n / 1000) = 1)

/-- The two nested loops of `cellular_automata_update`, before the swap. -/
def update_loops (s : State) : State :=
  (List.range (toUInt CELLULAR_AUTOMATA_HEIGHT)).foldl
    (fun s y =>
      (List.range (toUInt CELLULAR_AUTOMATA_WIDTH)).foldl (fun s x => update_cell s x y) s)
    s

/-- State of the neighbour of `(x, y)` at offset `d`. -/
def neighbourState (s : State) (x y : Int) (d : Int × Int) : Int :=
  get_cell_state s (get_cell_index (x + d.1) (y + d.2))

/-- The offsets of `NEIGHBORS_OFFSET` at which cell `(x, y)` has a live
neighbour in the active buffer, the neighbour being addressed through the
modulo-based `get_cell_index`. -/
def liveOffsets (s : State) (x y : Int) : List (Int × Int) :=
  NEIGHBORS_OFFSET.filter (fun d => get_cell_state s (get_cell_index (x + d.1) (y + d.2)) = 1)

/-- The Moore neighbourhood: every offset `(dx, dy)` with `dx` and `dy` in
`{-1, 0, 1}` except `(0, 0)`. -/
def mooreOffsets : List (Int × Int) :=
  (List.product [-1, 0, 1] [-1, 0, 1]).filter (fun d => d ≠ (0, 0))

/-- Number of live cells, in the active buffer, among the 8 neighbours of
cell `(x, y)` on the torus: the cells `((x + dx) mod 1000, (y + dy) mod 1000)`
for the offsets of the Moore neighbourhood. -/
def liveMooreNeighbours (s : State) (x y : Int) : Nat :=
  (mooreOffsets.filter (fun d =>
    get_cell_state s (get_cell_index ((x + d.1) % 1000) ((y + d.2) % 1000)) = 1)).length

/-- The Life rule on the number of live Moore neighbours. -/
def lifeRule (alive : Bool) (n : Nat) : Bool := n = 3 || (alive && n = 2)

/-- The all-zero state: both buffers cleared, buffer 0 active. -/
def zeroState : State := ⟨fun _ _ => 0, 0⟩

/-- Every cell of the active buffer has state `v`. -/
def AllCells (s : State) (v : Int) : Prop :=
  ∀ i : Int, 0 ≤ i → i < 1000000 → get_cell_state s i = v

/-- The state whose two buffers have every bit of every word set. -/
def fullState : State := ⟨fun _ _ => 4294967295, 0⟩

/-- The 8 neighbours of cell `p` on the torus. -/
def torusNeighbours (p : Int × Int) : List (Int × Int) :=
  mooreOffsets.map (fun d => ((p.1 + d.1) % 1000, (p.2 + d.2) % 1000))

/-- Number of neighbours of `p` on the torus that belong to `L`. -/
def liveCount (L : List (Int × Int)) (p : Int × Int) : Nat :=
  ((torusNeighbours p).filter (fun q => decide (q ∈ L))).length

/-- One generation of Life on a finite set of live cells of the torus: among
the live cells and their neighbours, those the rule makes alive. -/
def lifeStep (L : List (Int × Int)) : List (Int × Int) :=
  ((L ++ L.flatMap torusNeighbours).filter
    (fun p => lifeRule (decide (p ∈ L)) (liveCount L p))).dedup

/-- The live cells of the active buffer are exactly the cells of `L`
translated by `(c, r)` on the torus. -/
def LiveSet (s : State) (c r : Int) (L : List (Int × Int)) : Prop :=
  ∀ x y : Int, 0 ≤ x ∧ x < 1000 → 0 ≤ y ∧ y < 1000 →
    (get_cell_state s (get_cell_index x y) = 1 ↔ ((x - c) % 1000, (y - r) % 1000) ∈ L)

/-- The block written across the four corners of the grid. -/
def cornerBlock : State :=
  set_cell_alive (set_cell_alive (set_cell_alive (set_cell_alive zeroState
    (get_cell_index 999 999)) (get_cell_index 0 999)) (get_cell_index 999 0)) (get_cell_index 0 0)

/-- The words of both buffers are values of type `unsigned int`. -/
def WordsInRange (s : State) : Prop := ∀ b k, s.cells_buffers b k < 4294967296

/-- The plain conditional in place of the blend of `set_cell_state`:
`set_cell_alive` when `alive` is non-zero, `set_cell_dead` otherwise. -/
def set_cell_state_plain (s : State) (cell_index : Int) (alive : Int) : State :=
  if alive ≠ 0 then set_cell_alive s cell_index else set_cell_dead s cell_index

/-- State `s` differs from `s0` in the future buffer of `s0` at most: same
`current_buffer`, and every other buffer holds the same words. -/
def FutureOnly (s0 s : State) : Prop :=
  s.current_buffer = s0.current_buffer ∧
  ∀ b, b ≠ s0.current_buffer ^^^ 1 → s.cells_buffers b = s0.cells_buffers b

/-- The cleared state with a future buffer full of stale bits. -/
def staleFutureState : State := ⟨fun b _ => if b = 1 then 4294967295 else 0, 0⟩

/-! ## The stepper with checked accesses -/

/-- Subscript pair of an access `cells_buffers[b][k]`: defined only inside the
bounds `[2][CELLULAR_AUTOMATA_SIZE]` of the array. -/
def checkedSubscript (b : Nat) (k : Int) : Option Nat :=
  if b < 2 ∧ 0 ≤ k ∧ k < (CELLULAR_AUTOMATA_SIZE : Int) then some k.toNat else none

/-- Shift count of `1 << p`: defined only for `0 ≤ p < 32`. -/
def checkedShift (p : Int) : Option Nat :=
  if 0 ≤ p ∧ p < 32 then some p.toNat else none

/-- Function `get_bit_mask` with the shift count checked. -/
def get_bit_mask_checked (cell_index : Int) : Option Int := do
  let p ← checkedShift (get_bit_position cell_index)
  pure (toInt (1 * 2 ^ p))

/-- Function `get_cell_state` with the array access checked. -/
def get_cell_state_checked (s : State) (cell_index : Int) : Option Int := do
  let k ← checkedSubscript s.current_buffer (get_bit_index cell_index)
  let m ← get_bit_mask_checked cell_index
  pure (if ACTIVE_CELLS s k &&& toUInt m ≠ 0 then 1 else 0)

/-- Function `set_future_cell_state` with the array access checked. -/
def set_future_cell_state_checked (s : State) (cell_index : Int) (alive : Int) :
    Option State := do
  let m ← get_bit_mask_checked cell_index
  let k ← checkedSubscript (s.current_buffer ^^^ 1) (get_bit_index cell_index)
  pure (s.store (s.current_buffer ^^^ 1) k (blend (FUTURE_CELLS s k) (toUInt m) alive))

/-- Function `count_alive_neighboring_cells` with the accesses to
`NEIGHBORS_OFFSET` and to the buffer checked. -/
def count_alive_neighboring_cells_checked (s : State) (x y : Nat) : Option Int :=
  (List.range (toUInt CELLULAR_AUTOMATA_NUM_NEIGHBORS)).foldlM
    (fun sum i => do
      let d ← NEIGHBORS_OFFSET[i]?
      let v ← get_cell_state_checked s (get_cell_index_fast
        (toInt (toUInt (x + toUInt d.1))) (toInt (toUInt (y + toUInt d.2))))
      pure (toInt (sum + v)))
    0

/-- Function `update_cell` with every access checked. -/
def update_cell_checked (s : State) (x y : Nat) : Option State := do
  let idx := get_cell_index (toInt x) (toInt y)
  let S ← count_alive_neighboring_cells_checked s x y
  let E ← get_cell_state_checked s idx
  set_future_cell_state_checked s idx (next_cell_state E S)

/-- Function `cellular_automata_update` with every access checked: `none` as
soon as one subscript or shift count is out of range. -/
def cellular_automata_update_checked (s : State) : Option State := do
  let t ← (List.range (toUInt CELLULAR_AUTOMATA_HEIGHT)).foldlM
    (fun s y =>
      (List.range (toUInt CELLULAR_AUTOMATA_WIDTH)).foldlM
        (fun s x => update_cell_checked s x y) s)
    s
  pure (swap_buffer t)

/-! ## The render adapter -/

/-- Modelled from the spec: the structure `Color` of raylib, whose header is
not among the sources; the render boundary of the spec gives its fields
`{r, g, b, a}`. -/
structure Color where
  r : Nat
  g : Nat
  b : Nat
  a : Nat
  deriving DecidableEq

/-- Table `CELL_STATE_COLOR[2]`. -/
def CELL_STATE_COLOR : List Color := [⟨0, 0, 0, 255⟩, ⟨255, 255, 255, 255⟩]

abbrev CELL_SIZE : Int := 10
abbrev DISPLAYED_CELLS_WIDTH : Int := 100
abbrev DISPLAYED_CELLS_HEIGHT : Int := 100

/-- One call of `DrawRectangle` with its five arguments. -/
structure DrawCall where
  posX : Int
  posY : Int
  width : Int
  height : Int
  color : Color
  deriving DecidableEq

/-- Modelled from the spec: the function `DrawRectangle` of raylib, not among
the sources; it is the render boundary `drawCell(screenX, screenY, width,
height, color)` of the spec. The call is recorded after the calls issued so
far. -/
def DrawRectangle (calls : List DrawCall) (posX posY width height : Int) (color : Color) :
    List DrawCall :=
  calls ++ [⟨posX, posY, width, height, color⟩]

/-- Function `cellular_automata_draw`, on the globals and the calls issued so
far. The products `x * CELL_SIZE` are unsigned and converted to `int`; the
iterations are taken in loop order (the `omp parallel for` pragma only
changes the order of the calls). -/
def cellular_automata_draw (s : State) (calls : List DrawCall) : State × List DrawCall :=
  (List.range (toUInt DISPLAYED_CELLS_HEIGHT)).foldl
    (fun (w : State × List DrawCall) (y : Nat) =>
      (List.range (toUInt DISPLAYED_CELLS_WIDTH)).foldl
        (fun (w : State × List DrawCall) (x : Nat) =>
          (w.1, DrawRectangle w.2
            (toInt (toUInt (x * toUInt CELL_SIZE)))
            (toInt (toUInt (y * toUInt CELL_SIZE)))
            CELL_SIZE
            CELL_SIZE
            (CELL_STATE_COLOR.getD
              (get_cell_state w.1 (get_cell_index (toInt x) (toInt y))).toNat ⟨0, 0, 0, 0⟩)))
        w)
    (s, calls)

/-- The draw call owed to the displayed cell `(x, y)`: position
`(10 * x, 10 * y)`, size 10 x 10, colour (255,255,255,255) when the cell is
alive in the active buffer and (0,0,0,255) when it is dead. -/
def viewportCall (s : State) (x y : Nat) : DrawCall :=
  ⟨10 * x, 10 * y, 10, 10,
    if get_cell_state s (get_cell_index x y) = 1 then ⟨255, 255, 255, 255⟩ else ⟨0, 0, 0, 255⟩⟩

/-- The draw calls of one frame: one for each cell of the 100 x 100 viewport. -/
def viewportCalls (s : State) : List DrawCall :=
  (List.range 100).flatMap (fun y => (List.range 100).map (fun x => viewportCall s x y))

set_option maxRecDepth 100000

/-! ## Index arithmetic -/

theorem tmod_thousand (x : Int) :
    Int.tmod x 1000 = if 0 ≤ x then x % 1000 else -((-x) % 1000) := by
  rcases x with m | m
  · have h : (0:Int) ≤ Int.ofNat m := Int.ofNat_nonneg m
    rw [if_pos h]
    exact Int.tmod_eq_emod h (by decide)
  · have h : ¬ (0:Int) ≤ Int.negSucc m := by simp
    rw [if_neg h]
    show -(((m + 1) % 1000 : Nat) : Int) = _
    have h2 : -Int.negSucc m = ((m + 1 : Nat) : Int) := rfl
    rw [h2]
    omega

/-- One coordinate of `get_cell_index`: the double remainder is the
non-negative remainder, and the addition inside it does not wrap. -/
theorem wrap_coordinate (x : Int) :
    Int.tmod (toInt (Int.tmod x 1000 + 1000)) 1000 = x % 1000 ∧
    checkedInt (Int.tmod x 1000 + 1000) = some (Int.tmod x 1000 + 1000) := by
  have h := tmod_thousand x
  have h2 := tmod_thousand (toInt (Int.tmod x 1000 + 1000))
  unfold checkedInt
  unfold toInt at *
  constructor
  · rw [h2, h]; split_ifs <;> omega
  · rw [h]; split_ifs <;> first | rfl | omega

theorem get_cell_index_eq (x y : Int) :
    get_cell_index x y = (y % 1000) * 1000 + x % 1000 := by
  unfold get_cell_index
  simp only [CELLULAR_AUTOMATA_WIDTH, CELLULAR_AUTOMATA_HEIGHT]
  rw [(wrap_coordinate x).1, (wrap_coordinate y).1]
  unfold toInt
  omega

theorem get_cell_index_range (x y : Int) :
    0 ≤ get_cell_index x y ∧ get_cell_index x y < 1000000 := by
  rw [get_cell_index_eq]; omega

theorem get_cell_index_checked_eq (x y : Int) :
    get_cell_index_checked x y = some ((y % 1000) * 1000 + x % 1000) := by
  have hx := wrap_coordinate x
  have hy := wrap_coordinate y
  have hx1 : Int.tmod (Int.tmod x 1000 + 1000) 1000 = x % 1000 := by
    have h := tmod_thousand x
    have h2 := tmod_thousand (Int.tmod x 1000 + 1000)
    rw [h2, h]; split_ifs <;> omega
  have hy1 : Int.tmod (Int.tmod y 1000 + 1000) 1000 = y % 1000 := by
    have h := tmod_thousand y
    have h2 := tmod_thousand (Int.tmod y 1000 + 1000)
    rw [h2, h]; split_ifs <;> omega
  have hm : checkedInt (y % 1000 * 1000) = some (y % 1000 * 1000) := by
    unfold checkedInt; rw [if_pos]; omega
  have hr : checkedInt (y % 1000 * 1000 + x % 1000) = some (y % 1000 * 1000 + x % 1000) := by
    unfold checkedInt; rw [if_pos]; omega
  unfold get_cell_index_checked
  simp only [CELLULAR_AUTOMATA_WIDTH, CELLULAR_AUTOMATA_HEIGHT]
  rw [hx.2, hy.2]
  simp only [Option.bind_eq_bind, Option.some_bind, hx1, hy1, hm, hr]

/-! ## The transition rule -/

theorem next_cell_state_cases (E S : Int) (hE : E = 0 ∨ E = 1) (hS : 0 ≤ S ∧ S ≤ 8) :
    next_cell_state E S = if (E = 0 ∧ S = 3) ∨ (E = 1 ∧ (S = 2 ∨ S = 3)) then 1 else 0 := by
  obtain ⟨h0, h8⟩ := hS
  rcases hE with rfl | rfl <;> interval_cases S <;> decide

/-! ## Bit-level view of a buffer -/

theorem get_bit_index_cast (n : Nat) (hn : n < 2147483648) :
    (get_bit_index (n : Int)).toNat = n / 32 := by
  unfold get_bit_index toInt toSizeT
  simp only [BITS_PER_INT]
  omega

theorem get_bit_position_cast (n : Nat) (hn : n < 2147483648) :
    (get_bit_position (n : Int)).toNat = n % 32 := by
  unfold get_bit_position toInt toSizeT
  simp only [BITS_PER_INT]
  omega

theorem toUInt_shift (p : Nat) (hp : p < 32) : toUInt (toInt (1 * 2 ^ p)) = 2 ^ p := by
  interval_cases p <;> rfl

theorem toUInt_not_shift (p : Nat) (hp : p < 32) :
    toUInt (-(toInt (1 * 2 ^ p)) - 1) = 2 ^ 32 - (2 ^ p + 1) := by
  interval_cases p <;> rfl

theorem get_bit_mask_cast (n : Nat) (hn : n < 2147483648) :
    toUInt (get_bit_mask (n : Int)) = 2 ^ (n % 32) := by
  unfold get_bit_mask
  rw [get_bit_position_cast n hn]
  exact toUInt_shift _ (Nat.mod_lt _ (by decide))

theorem and_two_pow_ne_zero (w p : Nat) : (w &&& 2 ^ p ≠ 0) ↔ w.testBit p = true := by
  rw [Nat.and_two_pow]
  have hpos : 0 < 2 ^ p := Nat.two_pow_pos p
  cases h : w.testBit p
  · simp
  · simp

theorem get_cell_state_cast (s : State) (n : Nat) (hn : n < 2147483648) :
    get_cell_state s (n : Int) = if cellBit (ACTIVE_CELLS s) n then 1 else 0 := by
  unfold get_cell_state cellBit
  rw [get_bit_index_cast n hn, get_bit_mask_cast n hn]
  by_cases h : (ACTIVE_CELLS s (n / 32)).testBit (n % 32) = true
  · rw [if_pos ((and_two_pow_ne_zero _ _).2 h), if_pos h]
  · rw [if_neg (fun h2 => h ((and_two_pow_ne_zero _ _).1 h2)), if_neg h]

theorem testBit_or_two_pow (w p q : Nat) :
    (w ||| 2 ^ p).testBit q = (w.testBit q || decide (p = q)) := by
  rw [Nat.testBit_or, Nat.testBit_two_pow]

theorem testBit_and_not_two_pow (w p q : Nat) (hp : p < 32) (hq : q < 32) :
    (w &&& (2 ^ 32 - (2 ^ p + 1))).testBit q = (w.testBit q && !decide (p = q)) := by
  have h2 : 2 ^ p < 2 ^ 32 := Nat.pow_lt_pow_right (by decide) hp
  rw [Nat.testBit_and, Nat.testBit_two_pow_sub_succ h2, Nat.testBit_two_pow]
  simp [hq]

theorem testBit_blend (w p q : Nat) (alive : Int) (hp : p < 32) (hq : q < 32)
    (ha : alive = 0 ∨ alive = 1) :
    (blend w (2 ^ p) alive).testBit q = if q = p then decide (alive = 1) else w.testBit q := by
  have hm : 4294967295 - 2 ^ p = 2 ^ 32 - (2 ^ p + 1) := by
    have h2 : 2 ^ p < 2 ^ 32 := Nat.pow_lt_pow_right (by decide) hp
    omega
  unfold blend
  rw [hm, Nat.testBit_or, testBit_and_not_two_pow w p q hp hq, Nat.testBit_and,
    Nat.testBit_two_pow]
  rcases ha with rfl | rfl
  · have h0 : toUInt (toInt (-0)) = 0 := rfl
    rw [h0]
    by_cases h : q = p
    · subst h; simp
    · have h' : ¬ p = q := fun e => h e.symm
      simp [h, h']
  · have h1 : toUInt (toInt (-1)) = 2 ^ 32 - 1 := rfl
    rw [h1, Nat.testBit_two_pow_sub_one]
    by_cases h : q = p
    · subst h; simp [hq]
    · have h' : ¬ p = q := fun e => h e.symm
      simp [h, h']

/-- Two cell numbers in the same word with the same bit position are equal. -/
theorem cell_eq_of_word_bit (i j : Nat) (h1 : i / 32 = j / 32) (h2 : i % 32 = j % 32) :
    i = j := by omega

theorem xor_one_ne (b : Nat) : b ^^^ 1 ≠ b := by
  intro h
  have h2 : b ^^^ (b ^^^ 1) = 1 := Nat.xor_cancel_left b 1
  rw [h, Nat.xor_self] at h2
  exact absurd h2 (by decide)

/-! ## Effect of the writes on cells -/

theorem store_current_buffer (s : State) (b i v : Nat) :
    (s.store b i v).current_buffer = s.current_buffer := rfl

theorem store_same (s : State) (b i v j : Nat) :
    (s.store b i v).cells_buffers b j = if j = i then v else s.cells_buffers b j := by
  simp [State.store]

theorem store_other (s : State) (b b' i v : Nat) (h : b' ≠ b) :
    (s.store b i v).cells_buffers b' = s.cells_buffers b' := by
  funext j
  simp [State.store, h]

/-- Writing word `i / 32` of a buffer: the cells whose bit lies in another
word keep their bit. -/
theorem cellBit_store (s : State) (b i v j : Nat) :
    cellBit ((s.store b (i / 32) v).cells_buffers b) j =
      if j / 32 = i / 32 then v.testBit (j % 32) else cellBit (s.cells_buffers b) j := by
  unfold cellBit
  rw [store_same]
  split_ifs <;> rfl

theorem set_cell_alive_bit (s : State) (i j : Nat) (hi : i < 2147483648) :
    cellBit (ACTIVE_CELLS (set_cell_alive s (i : Int))) j =
      if j = i then true else cellBit (ACTIVE_CELLS s) j := by
  unfold set_cell_alive
  rw [get_bit_index_cast i hi, get_bit_mask_cast i hi]
  unfold ACTIVE_CELLS
  rw [store_current_buffer, cellBit_store, testBit_or_two_pow]
  by_cases hj : j = i
  · subst hj; simp
  · rw [if_neg hj]
    by_cases hw : j / 32 = i / 32
    · have hb : ¬ i % 32 = j % 32 := fun e => hj (cell_eq_of_word_bit j i hw e.symm)
      simp [hw, hb, cellBit]
    · simp [hw]

theorem set_cell_dead_bit (s : State) (i j : Nat) (hi : i < 2147483648) :
    cellBit (ACTIVE_CELLS (set_cell_dead s (i : Int))) j =
      if j = i then false else cellBit (ACTIVE_CELLS s) j := by
  unfold set_cell_dead
  rw [get_bit_index_cast i hi]
  unfold get_bit_mask
  rw [get_bit_position_cast i hi, toUInt_not_shift _ (Nat.mod_lt _ (by decide))]
  unfold ACTIVE_CELLS
  rw [store_current_buffer, cellBit_store]
  by_cases hj : j = i
  · subst hj
    rw [testBit_and_not_two_pow _ _ _ (Nat.mod_lt _ (by decide)) (Nat.mod_lt _ (by decide))]
    simp
  · rw [if_neg hj]
    by_cases hw : j / 32 = i / 32
    · have hb : ¬ i % 32 = j % 32 := fun e => hj (cell_eq_of_word_bit j i hw e.symm)
      rw [if_pos hw,
        testBit_and_not_two_pow _ _ _ (Nat.mod_lt _ (by decide)) (Nat.mod_lt _ (by decide))]
      simp [hw, hb, cellBit]
    · simp [hw]

theorem set_cell_alive_current_buffer (s : State) (i : Int) :
    (set_cell_alive s i).current_buffer = s.current_buffer := rfl

theorem set_cell_dead_current_buffer (s : State) (i : Int) :
    (set_cell_dead s i).current_buffer = s.current_buffer := rfl

theorem set_future_current_buffer (s : State) (i alive : Int) :
    (set_future_cell_state s i alive).current_buffer = s.current_buffer := rfl

/-- The active buffer is not written by `set_future_cell_state`. -/
theorem set_future_active (s : State) (i alive : Int) :
    ACTIVE_CELLS (set_future_cell_state s i alive) = ACTIVE_CELLS s := by
  unfold ACTIVE_CELLS set_future_cell_state
  exact store_other s _ _ _ _ (fun h => xor_one_ne _ h.symm)

theorem set_future_bit (s : State) (i j : Nat) (alive : Int) (hi : i < 2147483648)
    (ha : alive = 0 ∨ alive = 1) :
    cellBit (FUTURE_CELLS (set_future_cell_state s (i : Int) alive)) j =
      if j = i then decide (alive = 1) else cellBit (FUTURE_CELLS s) j := by
  unfold set_future_cell_state
  simp only []
  rw [get_bit_index_cast i hi, get_bit_mask_cast i hi]
  unfold FUTURE_CELLS
  rw [store_current_buffer, cellBit_store]
  by_cases hj : j = i
  · subst hj
    rw [if_pos rfl, if_pos rfl,
      testBit_blend _ _ _ _ (Nat.mod_lt _ (by decide)) (Nat.mod_lt _ (by decide)) ha, if_pos rfl]
  · rw [if_neg hj]
    by_cases hw : j / 32 = i / 32
    · have hb : ¬ j % 32 = i % 32 := fun e => hj (cell_eq_of_word_bit j i hw e)
      rw [if_pos hw,
        testBit_blend _ _ _ _ (Nat.mod_lt _ (by decide)) (Nat.mod_lt _ (by decide)) ha, if_neg hb]
      unfold cellBit
      rw [hw]
    · rw [if_neg hw]

/-- The value of `get_cell_state` depends on the state only through the
active buffer. -/
theorem get_cell_state_congr (s t : State) (h : ACTIVE_CELLS t = ACTIVE_CELLS s) (i : Int) :
    get_cell_state t i = get_cell_state s i := by
  unfold get_cell_state
  rw [h]

theorem count_congr (s t : State) (h : ACTIVE_CELLS t = ACTIVE_CELLS s) (x y : Nat) :
    count_alive_neighboring_cells t x y = count_alive_neighboring_cells s x y := by
  unfold count_alive_neighboring_cells
  have hg : get_cell_state t = get_cell_state s := funext (get_cell_state_congr s t h)
  rw [hg]

theorem get_cell_state_bool (s : State) (i : Int) :
    get_cell_state s i = 0 ∨ get_cell_state s i = 1 := by
  unfold get_cell_state
  split_ifs
  · exact Or.inr rfl
  · exact Or.inl rfl

theorem next_cell_state_bool (E S : Int) : next_cell_state E S = 0 ∨ next_cell_state E S = 1 := by
  unfold next_cell_state c_or
  split_ifs
  · exact Or.inr rfl
  · exact Or.inl rfl

/-! ## The generation step -/

/-- Invariant rule for a `for` loop over `0 .. n-1`. -/
theorem foldl_range_invariant {σ : Type} (f : σ → Nat → σ) (P : Nat → σ → Prop) (n : Nat)
    (s : σ) (h0 : P 0 s) (hstep : ∀ i t, i < n → P i t → P (i + 1) (f t i)) :
    P n ((List.range n).foldl f s) := by
  have key : ∀ k, k ≤ n → P k ((List.range k).foldl f s) := by
    intro k
    induction k with
    | zero => intro _; exact h0
    | succ k ih =>
      intro hk
      rw [List.range_succ, List.foldl_append]
      exact hstep k _ (by omega) (ih (by omega))
  exact key n (Nat.le_refl n)

theorem nextValue_congr (s t : State) (h : ACTIVE_CELLS t = ACTIVE_CELLS s) (x y : Nat) :
    nextValue t x y = nextValue s x y := by
  unfold nextValue
  rw [get_cell_state_congr s t h, count_congr s t h]

theorem nextValue_bool (s : State) (x y : Nat) : nextValue s x y = 0 ∨ nextValue s x y = 1 :=
  next_cell_state_bool _ _

theorem update_cell_index (x y : Nat) (hx : x < 1000) (hy : y < 1000) :
    get_cell_index (toInt x) (toInt y) = ((y * 1000 + x : Nat) : Int) := by
  rw [get_cell_index_eq]
  unfold toInt
  omega

theorem update_cell_processed (s0 s : State) (x y : Nat) (hx : x < 1000) (hy : y < 1000)
    (h : Processed s0 (y * 1000 + x) s) :
    Processed s0 (y * 1000 + (x + 1)) (update_cell s x y) := by
  obtain ⟨hcb, hact, hfut⟩ := h
  have hv : nextValue s x y = nextValue s0 x y := nextValue_congr s0 s hact x y
  have hupd : update_cell s x y =
      set_future_cell_state s ((y * 1000 + x : Nat) : Int) (nextValue s0 x y) := by
    rw [← hv, ← update_cell_index x y hx hy]; rfl
  rw [hupd]
  refine ⟨?_, ?_, ?_⟩
  · rw [set_future_current_buffer, hcb]
  · rw [set_future_active, hact]
  · intro n hn
    rw [set_future_bit s _ n _ (by omega) (nextValue_bool s0 x y)]
    by_cases hnk : n = y * 1000 + x
    · rw [if_pos hnk]
      have h1 : n % 1000 = x := by omega
      have h2 : n / 1000 = y := by omega
      rw [h1, h2]
    · rw [if_neg hnk]
      exact hfut n (by omega)

theorem update_loops_processed (s0 : State) : Processed s0 1000000 (update_loops s0) := by
  have hH : toUInt CELLULAR_AUTOMATA_HEIGHT = 1000 := rfl
  unfold update_loops
  rw [hH]
  have houter := foldl_range_invariant
    (fun s y => (List.range 1000).foldl (fun s x => update_cell s x y) s)
    (fun y s => Processed s0 (y * 1000) s) 1000 s0
    ⟨rfl, rfl, fun n hn => absurd hn (by omega)⟩
    (by
      intro y t hy ht
      have hinner := foldl_range_invariant (fun s x => update_cell s x y)
        (fun x s => Processed s0 (y * 1000 + x) s) 1000 t (by simpa using ht)
        (by
          intro x u hx hu
          exact update_cell_processed s0 u x y hx hy hu)
      have e : (y + 1) * 1000 = y * 1000 + 1000 := by omega
      rw [e]
      exact hinner)
  exact houter

theorem active_swap_buffer (t : State) : ACTIVE_CELLS (swap_buffer t) = FUTURE_CELLS t := rfl

theorem swap_buffer_current_buffer (t : State) :
    (swap_buffer t).current_buffer = t.current_buffer ^^^ 1 := rfl

theorem cellular_automata_update_eq (s : State) :
    cellular_automata_update s = swap_buffer (update_loops s) := rfl

theorem update_current_buffer (s : State) :
    (cellular_automata_update s).current_buffer = s.current_buffer ^^^ 1 := by
  rw [cellular_automata_update_eq]
  rw [swap_buffer_current_buffer, (update_loops_processed s).1]

/-- After a step, the state of cell `(x, y)` is the value computed by
`update_cell` from the state before the step. -/
theorem update_cell_state (s : State) (x y : Nat) (hx : x < 1000) (hy : y < 1000) :
    get_cell_state (cellular_automata_update s) ((y * 1000 + x : Nat) : Int) =
      nextValue s x y := by
  obtain ⟨_, _, hfut⟩ := update_loops_processed s
  rw [get_cell_state_cast _ _ (by omega), cellular_automata_update_eq]
  rw [active_swap_buffer, hfut _ (by omega)]
  have h1 : (y * 1000 + x) % 1000 = x := by omega
  have h2 : (y * 1000 + x) / 1000 = y := by omega
  rw [h1, h2]
  rcases nextValue_bool s x y with h | h <;> rw [h] <;> simp

/-! ## Neighbour counting -/

theorem wrap_x_eq (x : Int) (h : -1000 ≤ x ∧ x < 2000) : wrap_x x = x % 1000 := by
  unfold wrap_x toInt
  simp only [CELLULAR_AUTOMATA_WIDTH]
  split_ifs <;> omega

theorem wrap_y_eq (y : Int) (h : -1000 ≤ y ∧ y < 2000) : wrap_y y = y % 1000 := by
  unfold wrap_y toInt
  simp only [CELLULAR_AUTOMATA_HEIGHT]
  split_ifs <;> omega

theorem get_cell_index_fast_eq (x y : Int) (hx : -1000 ≤ x ∧ x < 2000)
    (hy : -1000 ≤ y ∧ y < 2000) : get_cell_index_fast x y = get_cell_index x y := by
  rw [get_cell_index_eq]
  unfold get_cell_index_fast
  rw [wrap_x_eq x hx, wrap_y_eq y hy]
  unfold toInt
  simp only [CELLULAR_AUTOMATA_WIDTH]
  omega

/-- The unsigned sum `x + d` converted back to `int`, for a grid coordinate
`x` and an offset `d` of the table. -/
theorem neighbour_coordinate (x : Nat) (d : Int) (hx : x < 1000) (hd : -1 ≤ d ∧ d ≤ 1) :
    toInt (toUInt (x + toUInt d)) = x + d := by
  unfold toInt toUInt
  omega

theorem offset_bounds (d : Int × Int) (h : d ∈ NEIGHBORS_OFFSET) :
    (-1 ≤ d.1 ∧ d.1 ≤ 1) ∧ (-1 ≤ d.2 ∧ d.2 ≤ 1) := by
  simp only [NEIGHBORS_OFFSET, List.mem_cons, List.mem_singleton, List.not_mem_nil,
    or_false] at h
  rcases h with rfl | rfl | rfl | rfl | rfl | rfl | rfl | rfl <;> decide

theorem neighbourState_bool (s : State) (x y : Int) (d : Int × Int) :
    neighbourState s x y d = 0 ∨ neighbourState s x y d = 1 := get_cell_state_bool _ _

theorem neighbourState_range (s : State) (x y : Int) (d : Int × Int) :
    0 ≤ neighbourState s x y d ∧ neighbourState s x y d ≤ 1 := by
  rcases neighbourState_bool s x y d with h | h <;> rw [h] <;> decide

theorem count_term (s : State) (x y : Nat) (d : Int × Int) (hx : x < 1000) (hy : y < 1000)
    (h1 : -1 ≤ d.1 ∧ d.1 ≤ 1) (h2 : -1 ≤ d.2 ∧ d.2 ≤ 1) :
    get_cell_state s (get_cell_index_fast (toInt (toUInt (x + toUInt d.1)))
      (toInt (toUInt (y + toUInt d.2)))) = neighbourState s x y d := by
  rw [neighbour_coordinate x d.1 hx h1, neighbour_coordinate y d.2 hy h2,
    get_cell_index_fast_eq _ _ (by omega) (by omega)]
  rfl

theorem toInt_small (v : Int) (h : 0 ≤ v ∧ v ≤ 8) : toInt v = v := by
  unfold toInt
  omega

theorem count_eq_sum (s : State) (x y : Nat) (hx : x < 1000) (hy : y < 1000) :
    count_alive_neighboring_cells s x y =
      neighbourState s x y (-1, 0) + neighbourState s x y (1, 0) +
      neighbourState s x y (0, -1) + neighbourState s x y (0, 1) +
      neighbourState s x y (-1, 1) + neighbourState s x y (1, -1) +
      neighbourState s x y (-1, -1) + neighbourState s x y (1, 1) := by
  have hr : List.range (toUInt CELLULAR_AUTOMATA_NUM_NEIGHBORS) = [0, 1, 2, 3, 4, 5, 6, 7] := rfl
  unfold count_alive_neighboring_cells
  rw [hr]
  simp only [List.foldl, NEIGHBORS_OFFSET, List.getD_cons_zero, List.getD_cons_succ]
  rw [count_term s x y (-1, 0) hx hy (by decide) (by decide),
    count_term s x y (1, 0) hx hy (by decide) (by decide),
    count_term s x y (0, -1) hx hy (by decide) (by decide),
    count_term s x y (0, 1) hx hy (by decide) (by decide),
    count_term s x y (-1, 1) hx hy (by decide) (by decide),
    count_term s x y (1, -1) hx hy (by decide) (by decide),
    count_term s x y (-1, -1) hx hy (by decide) (by decide),
    count_term s x y (1, 1) hx hy (by decide) (by decide)]
  have b1 := neighbourState_range s x y (-1, 0)
  have b2 := neighbourState_range s x y (1, 0)
  have b3 := neighbourState_range s x y (0, -1)
  have b4 := neighbourState_range s x y (0, 1)
  have b5 := neighbourState_range s x y (-1, 1)
  have b6 := neighbourState_range s x y (1, -1)
  have b7 := neighbourState_range s x y (-1, -1)
  have b8 := neighbourState_range s x y (1, 1)
  generalize neighbourState s x y (-1, 0) = a1 at *
  generalize neighbourState s x y (1, 0) = a2 at *
  generalize neighbourState s x y (0, -1) = a3 at *
  generalize neighbourState s x y (0, 1) = a4 at *
  generalize neighbourState s x y (-1, 1) = a5 at *
  generalize neighbourState s x y (1, -1) = a6 at *
  generalize neighbourState s x y (-1, -1) = a7 at *
  generalize neighbourState s x y (1, 1) = a8 at *
  rw [toInt_small (0 + a1) (by omega), toInt_small (0 + a1 + a2) (by omega),
    toInt_small (0 + a1 + a2 + a3) (by omega), toInt_small (0 + a1 + a2 + a3 + a4) (by omega),
    toInt_small (0 + a1 + a2 + a3 + a4 + a5) (by omega),
    toInt_small (0 + a1 + a2 + a3 + a4 + a5 + a6) (by omega),
    toInt_small (0 + a1 + a2 + a3 + a4 + a5 + a6 + a7) (by omega),
    toInt_small (0 + a1 + a2 + a3 + a4 + a5 + a6 + a7 + a8) (by omega)]
  omega

theorem get_cell_index_mod (x y : Int) :
    get_cell_index (x % 1000) (y % 1000) = get_cell_index x y := by
  rw [get_cell_index_eq, get_cell_index_eq]
  omega

theorem indicator_cast (a : Int) (h : a = 0 ∨ a = 1) :
    (if a = 1 then (1 : Int) else 0) = a := by
  rcases h with rfl | rfl <;> rfl

theorem mooreOffsets_eq : mooreOffsets =
    [(-1, -1), (-1, 0), (-1, 1), (0, -1), (0, 1), (1, -1), (1, 0), (1, 1)] := by
  decide

theorem liveOffsets_length (s : State) (x y : Int) :
    ((liveOffsets s x y).length : Int) =
      neighbourState s x y (-1, 0) + neighbourState s x y (1, 0) +
      neighbourState s x y (0, -1) + neighbourState s x y (0, 1) +
      neighbourState s x y (-1, 1) + neighbourState s x y (1, -1) +
      neighbourState s x y (-1, -1) + neighbourState s x y (1, 1) := by
  have e : liveOffsets s x y = NEIGHBORS_OFFSET.filter (fun d => neighbourState s x y d = 1) := rfl
  rw [e, ← List.countP_eq_length_filter]
  simp only [NEIGHBORS_OFFSET, List.countP_cons, List.countP_nil, decide_eq_true_eq]
  push_cast
  rw [indicator_cast _ (neighbourState_bool s x y _), indicator_cast _ (neighbourState_bool s x y _),
    indicator_cast _ (neighbourState_bool s x y _), indicator_cast _ (neighbourState_bool s x y _),
    indicator_cast _ (neighbourState_bool s x y _), indicator_cast _ (neighbourState_bool s x y _),
    indicator_cast _ (neighbourState_bool s x y _), indicator_cast _ (neighbourState_bool s x y _)]
  omega

theorem liveMooreNeighbours_cast (s : State) (x y : Int) :
    ((liveMooreNeighbours s x y : Nat) : Int) =
      neighbourState s x y (-1, 0) + neighbourState s x y (1, 0) +
      neighbourState s x y (0, -1) + neighbourState s x y (0, 1) +
      neighbourState s x y (-1, 1) + neighbourState s x y (1, -1) +
      neighbourState s x y (-1, -1) + neighbourState s x y (1, 1) := by
  have e : liveMooreNeighbours s x y =
      (mooreOffsets.filter (fun d => neighbourState s x y d = 1)).length := by
    unfold liveMooreNeighbours neighbourState
    simp only [get_cell_index_mod]
  rw [e, mooreOffsets_eq, ← List.countP_eq_length_filter]
  simp only [List.countP_cons, List.countP_nil, decide_eq_true_eq]
  push_cast
  rw [indicator_cast _ (neighbourState_bool s x y _), indicator_cast _ (neighbourState_bool s x y _),
    indicator_cast _ (neighbourState_bool s x y _), indicator_cast _ (neighbourState_bool s x y _),
    indicator_cast _ (neighbourState_bool s x y _), indicator_cast _ (neighbourState_bool s x y _),
    indicator_cast _ (neighbourState_bool s x y _), indicator_cast _ (neighbourState_bool s x y _)]
  omega

theorem count_eq_liveMoore (s : State) (x y : Nat) (hx : x < 1000) (hy : y < 1000) :
    count_alive_neighboring_cells s x y = (liveMooreNeighbours s x y : Nat) := by
  rw [count_eq_sum s x y hx hy, liveMooreNeighbours_cast]

theorem liveMooreNeighbours_le (s : State) (x y : Int) : liveMooreNeighbours s x y ≤ 8 := by
  unfold liveMooreNeighbours
  exact le_trans (List.length_filter_le _ _) (by rw [mooreOffsets_eq]; decide)

theorem nextValue_eq (s : State) (x y : Nat) (hx : x < 1000) (hy : y < 1000) :
    nextValue s x y =
      if lifeRule (decide (get_cell_state s (get_cell_index x y) = 1))
        (liveMooreNeighbours s x y) = true then 1 else 0 := by
  have hE := get_cell_state_bool s (get_cell_index x y)
  have hN := liveMooreNeighbours_le s x y
  have hxi : toInt (x : Int) = x := by unfold toInt; omega
  have hyi : toInt (y : Int) = y := by unfold toInt; omega
  unfold nextValue
  rw [count_eq_liveMoore s x y hx hy, hxi, hyi,
    next_cell_state_cases _ _ hE ⟨by omega, by omega⟩]
  unfold lifeRule
  generalize liveMooreNeighbours s x y = n at *
  rcases hE with h | h <;> rw [h] <;> interval_cases n <;> simp

theorem cell_index_cast (x y : Nat) (hx : x < 1000) (hy : y < 1000) :
    get_cell_index x y = ((y * 1000 + x : Nat) : Int) := by
  rw [get_cell_index_eq]
  omega

/-- One generation, cell by cell: the new state of `(x, y)` is the Life rule
applied to its old state and its old number of live Moore neighbours. -/
theorem step_cell (s : State) (x y : Int) (hx : 0 ≤ x ∧ x < 1000) (hy : 0 ≤ y ∧ y < 1000) :
    get_cell_state (cellular_automata_update s) (get_cell_index x y) =
      if lifeRule (decide (get_cell_state s (get_cell_index x y) = 1))
        (liveMooreNeighbours s x y) = true then 1 else 0 := by
  obtain ⟨hx0, hx1⟩ := hx
  obtain ⟨hy0, hy1⟩ := hy
  lift x to Nat using hx0
  lift y to Nat using hy0
  have hxn : x < 1000 := by omega
  have hyn : y < 1000 := by omega
  rw [← nextValue_eq s x y hxn hyn, cell_index_cast x y hxn hyn]
  exact update_cell_state s x y hxn hyn

/-- Every cell number of the grid is the index of the cell in column
`i % 1000` and row `i / 1000`. -/
theorem cell_of_index (i : Int) (h0 : 0 ≤ i) (h1 : i < 1000000) :
    i = get_cell_index (i % 1000) (i / 1000) ∧
    (0 ≤ i % 1000 ∧ i % 1000 < 1000) ∧ (0 ≤ i / 1000 ∧ i / 1000 < 1000) := by
  rw [get_cell_index_eq]
  omega

/-! ## Uniform grids -/

theorem get_cell_state_set_alive (s : State) (i j : Int) (hi : 0 ≤ i ∧ i < 1000000)
    (hj : 0 ≤ j ∧ j < 1000000) :
    get_cell_state (set_cell_alive s i) j = if j = i then 1 else get_cell_state s j := by
  obtain ⟨hi0, hi1⟩ := hi
  obtain ⟨hj0, hj1⟩ := hj
  lift i to Nat using hi0
  lift j to Nat using hj0
  rw [get_cell_state_cast _ j (by omega), get_cell_state_cast _ j (by omega),
    set_cell_alive_bit s i j (by omega)]
  by_cases h : j = i
  · subst h; simp
  · have h' : ¬ (j : Int) = (i : Int) := fun e => h (by omega)
    rw [if_neg h, if_neg h']

theorem get_cell_state_set_dead (s : State) (i j : Int) (hi : 0 ≤ i ∧ i < 1000000)
    (hj : 0 ≤ j ∧ j < 1000000) :
    get_cell_state (set_cell_dead s i) j = if j = i then 0 else get_cell_state s j := by
  obtain ⟨hi0, hi1⟩ := hi
  obtain ⟨hj0, hj1⟩ := hj
  lift i to Nat using hi0
  lift j to Nat using hj0
  rw [get_cell_state_cast _ j (by omega), get_cell_state_cast _ j (by omega),
    set_cell_dead_bit s i j (by omega)]
  by_cases h : j = i
  · subst h; simp
  · have h' : ¬ (j : Int) = (i : Int) := fun e => h (by omega)
    rw [if_neg h, if_neg h']

theorem neighbourState_uniform (s : State) (v : Int) (h : AllCells s v) (x y : Int)
    (d : Int × Int) : neighbourState s x y d = v := by
  unfold neighbourState
  exact h _ (get_cell_index_range _ _).1 (get_cell_index_range _ _).2

theorem liveMoore_uniform (s : State) (v : Int) (h : AllCells s v) (x y : Int) :
    ((liveMooreNeighbours s x y : Nat) : Int) = 8 * v := by
  rw [liveMooreNeighbours_cast]
  simp only [neighbourState_uniform s v h]
  omega

theorem update_all_dead (s : State) (h : AllCells s 0) :
    AllCells (cellular_automata_update s) 0 := by
  intro i h0 h1
  obtain ⟨hi, hx, hy⟩ := cell_of_index i h0 h1
  have hn := liveMoore_uniform s 0 h (i % 1000) (i / 1000)
  have hn0 : liveMooreNeighbours s (i % 1000) (i / 1000) = 0 := by omega
  rw [hi, step_cell s _ _ hx hy, hn0]
  simp [lifeRule]

theorem update_all_alive (s : State) (h : AllCells s 1) :
    AllCells (cellular_automata_update s) 0 := by
  intro i h0 h1
  obtain ⟨hi, hx, hy⟩ := cell_of_index i h0 h1
  have hn := liveMoore_uniform s 1 h (i % 1000) (i / 1000)
  have hn8 : liveMooreNeighbours s (i % 1000) (i / 1000) = 8 := by omega
  rw [hi, step_cell s _ _ hx hy, hn8]
  simp [lifeRule]

theorem update_preserves_flag (s : State) (h : s.current_buffer = 0 ∨ s.current_buffer = 1) :
    (cellular_automata_update s).current_buffer = 0 ∨
      (cellular_automata_update s).current_buffer = 1 := by
  rw [update_current_buffer]
  rcases h with h | h <;> rw [h]
  · exact Or.inr rfl
  · exact Or.inl rfl

theorem iterate_all_dead (n : Nat) (s : State) (h : AllCells s 0) :
    AllCells (Nat.iterate cellular_automata_update n s) 0 := by
  induction n generalizing s with
  | zero => exact h
  | succ n ih => exact ih (cellular_automata_update s) (update_all_dead s h)

theorem zeroState_all_dead : AllCells zeroState 0 := by
  intro i h0 h1
  lift i to Nat using h0
  rw [get_cell_state_cast _ i (by omega)]
  simp [cellBit, ACTIVE_CELLS, zeroState]

theorem fullState_all_alive : AllCells fullState 1 := by
  intro i h0 h1
  lift i to Nat using h0
  rw [get_cell_state_cast _ i (by omega)]
  have hb : cellBit (ACTIVE_CELLS fullState) i = true := by
    show (2 ^ 32 - 1 : Nat).testBit (i % 32) = true
    rw [Nat.testBit_two_pow_sub_one]
    exact decide_eq_true (Nat.mod_lt _ (by decide))
  rw [hb]; rfl

/-! ## Patterns: live sets given by a list of cells relative to an anchor -/

theorem mem_mooreOffsets (d : Int × Int) (h : d ∈ mooreOffsets) :
    (-1 ≤ d.1 ∧ d.1 ≤ 1) ∧ (-1 ≤ d.2 ∧ d.2 ≤ 1) ∧ (-d.1, -d.2) ∈ mooreOffsets := by
  rw [mooreOffsets_eq] at h ⊢
  simp only [List.mem_cons, List.mem_singleton, List.not_mem_nil, or_false] at h
  rcases h with rfl | rfl | rfl | rfl | rfl | rfl | rfl | rfl <;> decide

/-- The neighbour relation of the torus is symmetric. -/
theorem torusNeighbours_symm (p q : Int × Int) (hp1 : 0 ≤ p.1 ∧ p.1 < 1000)
    (hp2 : 0 ≤ p.2 ∧ p.2 < 1000) (h : q ∈ torusNeighbours p) : p ∈ torusNeighbours q := by
  unfold torusNeighbours at h ⊢
  rw [List.mem_map] at h ⊢
  obtain ⟨d, hd, rfl⟩ := h
  obtain ⟨h1, h2, hneg⟩ := mem_mooreOffsets d hd
  refine ⟨(-d.1, -d.2), hneg, ?_⟩
  obtain ⟨p1, p2⟩ := p
  obtain ⟨d1, d2⟩ := d
  simp only [Prod.mk.injEq] at *
  constructor <;> omega

theorem mem_lifeStep (L : List (Int × Int)) (p : Int × Int) (hp1 : 0 ≤ p.1 ∧ p.1 < 1000)
    (hp2 : 0 ≤ p.2 ∧ p.2 < 1000) :
    p ∈ lifeStep L ↔ lifeRule (decide (p ∈ L)) (liveCount L p) = true := by
  unfold lifeStep
  rw [List.mem_dedup, List.mem_filter]
  constructor
  · exact fun h => h.2
  · intro h
    refine ⟨?_, h⟩
    rw [List.mem_append]
    by_cases hL : p ∈ L
    · exact Or.inl hL
    · right
      have hn : liveCount L p = 3 := by
        unfold lifeRule at h
        simpa [hL] using h
      have hpos : 0 < ((torusNeighbours p).filter (fun q => decide (q ∈ L))).length := by
        have e : liveCount L p = ((torusNeighbours p).filter (fun q => decide (q ∈ L))).length :=
          rfl
        omega
      obtain ⟨q, hq⟩ := List.exists_mem_of_length_pos hpos
      rw [List.mem_filter] at hq
      rw [List.mem_flatMap]
      exact ⟨q, of_decide_eq_true hq.2, torusNeighbours_symm p q hp1 hp2 hq.1⟩

theorem liveMoore_eq_liveCount (s : State) (c r : Int) (L : List (Int × Int))
    (h : LiveSet s c r L) (x y : Int) :
    liveMooreNeighbours s x y = liveCount L ((x - c) % 1000, (y - r) % 1000) := by
  unfold liveMooreNeighbours liveCount torusNeighbours
  rw [List.filter_map, List.length_map]
  congr 1
  apply List.filter_congr
  intro d _
  have hx : 0 ≤ (x + d.1) % 1000 ∧ (x + d.1) % 1000 < 1000 := by omega
  have hy : 0 ≤ (y + d.2) % 1000 ∧ (y + d.2) % 1000 < 1000 := by omega
  have e1 : ((x + d.1) % 1000 - c) % 1000 = ((x - c) % 1000 + d.1) % 1000 := by omega
  have e2 : ((y + d.2) % 1000 - r) % 1000 = ((y - r) % 1000 + d.2) % 1000 := by omega
  have hiff := h _ _ hx hy
  rw [e1, e2] at hiff
  simp only [Function.comp]
  exact decide_eq_decide.2 hiff

/-- One step of the program on a pattern is one step of Life on its cells. -/
theorem liveSet_step (s : State) (c r : Int) (L : List (Int × Int)) (h : LiveSet s c r L) :
    LiveSet (cellular_automata_update s) c r (lifeStep L) := by
  intro x y hx hy
  rw [step_cell s x y hx hy, mem_lifeStep L _ (by simp only []; omega) (by simp only []; omega),
    liveMoore_eq_liveCount s c r L h x y]
  have e : decide (get_cell_state s (get_cell_index x y) = 1) =
      decide (((x - c) % 1000, (y - r) % 1000) ∈ L) := decide_eq_decide.2 (h x y hx hy)
  rw [e]
  split_ifs with hr
  · simp [hr]
  · simp [hr]

theorem liveSet_congr (s : State) (c r : Int) (L L' : List (Int × Int))
    (h : LiveSet s c r L) (hsub : ∀ p ∈ L, p ∈ L') (hsup : ∀ p ∈ L', p ∈ L) :
    LiveSet s c r L' :=
  fun x y hx hy => (h x y hx hy).trans ⟨hsub _, hsup _⟩

/-! ## Initialisation and seeding -/

theorem initalize_words (s : State) :
    (cellular_automata_initalize s).current_buffer = s.current_buffer ∧
    ∀ i, i < 31250 → ACTIVE_CELLS (cellular_automata_initalize s) i = 0 := by
  have hsize : CELLULAR_AUTOMATA_SIZE = 31250 := by decide
  unfold cellular_automata_initalize
  rw [hsize]
  have hinv := foldl_range_invariant
    (fun (t : State) i => t.store t.current_buffer i (toUInt DEAD_CELL))
    (fun k t => t.current_buffer = s.current_buffer ∧ ∀ i, i < k → ACTIVE_CELLS t i = 0)
    31250 s ⟨rfl, fun i hi => absurd hi (by omega)⟩
    (by
      intro k t _ ht
      obtain ⟨hcb, hw⟩ := ht
      refine ⟨hcb, ?_⟩
      intro i hi
      unfold ACTIVE_CELLS
      rw [store_current_buffer, store_same]
      by_cases hik : i = k
      · rw [if_pos hik]; rfl
      · rw [if_neg hik]
        exact hw i (by omega))
  exact hinv

theorem initalize_all_dead (s : State) : AllCells (cellular_automata_initalize s) 0 := by
  intro i h0 h1
  lift i to Nat using h0
  rw [get_cell_state_cast _ i (by omega)]
  unfold cellBit
  rw [(initalize_words s).2 (i / 32) (by omega)]
  simp

theorem state_ite_of_iff (s : State) (i : Int) (P : Prop) [Decidable P]
    (h : get_cell_state s i = 1 ↔ P) : get_cell_state s i = if P then 1 else 0 := by
  by_cases hP : P
  · rw [if_pos hP]; exact h.2 hP
  · rw [if_neg hP]
    rcases get_cell_state_bool s i with h0 | h1
    · exact h0
    · exact absurd (h.1 h1) hP

theorem state_iff_of_ite (s : State) (i : Int) (P : Prop) [Decidable P]
    (h : get_cell_state s i = if P then 1 else 0) : get_cell_state s i = 1 ↔ P := by
  rw [h]
  by_cases hP : P <;> simp [hP]

theorem cell_index_eq_iff (x y a b : Int) (hx : 0 ≤ x ∧ x < 1000) (hy : 0 ≤ y ∧ y < 1000)
    (ha : 0 ≤ a ∧ a < 1000) (hb : 0 ≤ b ∧ b < 1000) :
    get_cell_index x y = get_cell_index a b ↔ x = a ∧ y = b := by
  rw [get_cell_index_eq, get_cell_index_eq]
  omega

/-- A cell set alive at `(a, b)` joins the pattern. -/
theorem liveSet_set_alive (s : State) (L : List (Int × Int)) (a b : Int)
    (ha : 0 ≤ a ∧ a < 1000) (hb : 0 ≤ b ∧ b < 1000) (h : LiveSet s 0 0 L) :
    LiveSet (set_cell_alive s (get_cell_index a b)) 0 0 ((a, b) :: L) := by
  intro x y hx hy
  rw [get_cell_state_set_alive s _ _ (get_cell_index_range a b) (get_cell_index_range x y),
    List.mem_cons, ← h x y hx hy]
  have e1 : (x - 0) % 1000 = x := by omega
  have e2 : (y - 0) % 1000 = y := by omega
  rw [e1, e2, Prod.mk.injEq]
  by_cases hc : get_cell_index x y = get_cell_index a b
  · rw [if_pos hc]
    have := (cell_index_eq_iff x y a b hx hy ha hb).1 hc
    simp [this]
  · rw [if_neg hc]
    have hne : ¬ (x = a ∧ y = b) := fun e => hc ((cell_index_eq_iff x y a b hx hy ha hb).2 e)
    simp [hne]

theorem liveSet_all_dead (s : State) (h : AllCells s 0) : LiveSet s 0 0 [] := by
  intro x y _ _
  rw [h _ (get_cell_index_range x y).1 (get_cell_index_range x y).2]
  simp

theorem setup_ship_liveSet (s : State) (h : AllCells s 0) :
    LiveSet (setup_ship s) 0 0 [(12, 12), (11, 12), (10, 12), (12, 11), (11, 10)] := by
  unfold setup_ship
  exact liveSet_set_alive _ _ 12 12 (by decide) (by decide)
    (liveSet_set_alive _ _ 11 12 (by decide) (by decide)
      (liveSet_set_alive _ _ 10 12 (by decide) (by decide)
        (liveSet_set_alive _ _ 12 11 (by decide) (by decide)
          (liveSet_set_alive _ _ 11 10 (by decide) (by decide) (liveSet_all_dead s h)))))

theorem setup_oscillator_liveSet (s : State) (h : AllCells s 0) :
    LiveSet (setup_oscillator s) 0 0 [(6, 5), (5, 5), (4, 5)] := by
  unfold setup_oscillator
  exact liveSet_set_alive _ _ 6 5 (by decide) (by decide)
    (liveSet_set_alive _ _ 5 5 (by decide) (by decide)
      (liveSet_set_alive _ _ 4 5 (by decide) (by decide) (liveSet_all_dead s h)))

/-- Reading a pattern anchored at the origin. -/
theorem liveSet_origin (s : State) (L : List (Int × Int)) (h : LiveSet s 0 0 L) (x y : Int)
    (hx : 0 ≤ x ∧ x < 1000) (hy : 0 ≤ y ∧ y < 1000) :
    get_cell_state s (get_cell_index x y) = if (x, y) ∈ L then 1 else 0 := by
  apply state_ite_of_iff
  have e1 : (x - 0) % 1000 = x := by omega
  have e2 : (y - 0) % 1000 = y := by omega
  have := h x y hx hy
  rw [e1, e2] at this
  exact this

/-! ## Writes on words -/

theorem store_store (s : State) (b i v w : Nat) : (s.store b i v).store b i w = s.store b i w := by
  unfold State.store
  congr 1
  funext b' i'
  by_cases h : b' = b ∧ i' = i <;> simp [h]

theorem set_cell_alive_twice (s : State) (i : Int) :
    set_cell_alive (set_cell_alive s i) i = set_cell_alive s i := by
  unfold set_cell_alive ACTIVE_CELLS
  rw [store_current_buffer, store_same, if_pos rfl, store_store, Nat.or_assoc, Nat.or_self]

theorem set_cell_dead_twice (s : State) (i : Int) :
    set_cell_dead (set_cell_dead s i) i = set_cell_dead s i := by
  unfold set_cell_dead ACTIVE_CELLS
  rw [store_current_buffer, store_same, if_pos rfl, store_store, Nat.and_assoc, Nat.and_self]

/-- Seeding one cell: the cell becomes alive, the others keep their state. -/
theorem seed_cell (s : State) (a b x y : Int) (ha : 0 ≤ a ∧ a < 1000) (hb : 0 ≤ b ∧ b < 1000)
    (hx : 0 ≤ x ∧ x < 1000) (hy : 0 ≤ y ∧ y < 1000) :
    get_cell_state (set_cell_alive s (get_cell_index a b)) (get_cell_index x y) =
      if (x, y) = (a, b) then 1 else get_cell_state s (get_cell_index x y) := by
  rw [get_cell_state_set_alive s _ _ (get_cell_index_range a b) (get_cell_index_range x y)]
  by_cases h : x = a ∧ y = b
  · rw [if_pos ((cell_index_eq_iff x y a b hx hy ha hb).2 h), if_pos (Prod.ext h.1 h.2)]
  · rw [if_neg (fun e => h ((cell_index_eq_iff x y a b hx hy ha hb).1 e)),
      if_neg (fun e => h ⟨(Prod.mk.inj e).1, (Prod.mk.inj e).2⟩)]

theorem setup_oscillator_cells (s : State) (x y : Int) (hx : 0 ≤ x ∧ x < 1000)
    (hy : 0 ≤ y ∧ y < 1000) :
    get_cell_state (setup_oscillator s) (get_cell_index x y) =
      if (x, y) ∈ [((4 : Int), (5 : Int)), (5, 5), (6, 5)] then 1
      else get_cell_state s (get_cell_index x y) := by
  unfold setup_oscillator
  simp only []
  rw [seed_cell _ 6 5 x y (by decide) (by decide) hx hy,
    seed_cell _ 5 5 x y (by decide) (by decide) hx hy,
    seed_cell _ 4 5 x y (by decide) (by decide) hx hy]
  simp only [List.mem_cons, List.not_mem_nil, or_false]
  by_cases h1 : (x, y) = (4, 5) <;> by_cases h2 : (x, y) = (5, 5) <;>
    by_cases h3 : (x, y) = (6, 5) <;> simp [h1, h2, h3]

theorem setup_ship_cells (s : State) (x y : Int) (hx : 0 ≤ x ∧ x < 1000)
    (hy : 0 ≤ y ∧ y < 1000) :
    get_cell_state (setup_ship s) (get_cell_index x y) =
      if (x, y) ∈ [((11 : Int), (10 : Int)), (12, 11), (10, 12), (11, 12), (12, 12)] then 1
      else get_cell_state s (get_cell_index x y) := by
  unfold setup_ship
  simp only []
  rw [seed_cell _ 12 12 x y (by decide) (by decide) hx hy,
    seed_cell _ 11 12 x y (by decide) (by decide) hx hy,
    seed_cell _ 10 12 x y (by decide) (by decide) hx hy,
    seed_cell _ 12 11 x y (by decide) (by decide) hx hy,
    seed_cell _ 11 10 x y (by decide) (by decide) hx hy]
  simp only [List.mem_cons, List.not_mem_nil, or_false]
  by_cases h1 : (x, y) = (11, 10) <;> by_cases h2 : (x, y) = (12, 11) <;>
    by_cases h3 : (x, y) = (10, 12) <;> by_cases h4 : (x, y) = (11, 12) <;>
    by_cases h5 : (x, y) = (12, 12) <;> simp [h1, h2, h3, h4, h5]

theorem toUInt_lt (v : Int) : toUInt v < 4294967296 := by
  unfold toUInt
  omega

theorem blend_lt (w m : Nat) (alive : Int) (hm : m < 4294967296) :
    blend w m alive < 4294967296 := by
  unfold blend
  have h1 : w &&& (4294967295 - m) < 2 ^ 32 :=
    Nat.lt_of_le_of_lt Nat.and_le_right (by omega)
  have h2 : toUInt (toInt (-alive)) &&& m < 2 ^ 32 :=
    Nat.lt_of_le_of_lt Nat.and_le_right (by omega)
  exact Nat.or_lt_two_pow h1 h2

/-- Two 32-bit words with the same 32 bits are equal. -/
theorem word_eq_of_bits (a b : Nat) (ha : a < 4294967296) (hb : b < 4294967296)
    (h : ∀ q, q < 32 → a.testBit q = b.testBit q) : a = b := by
  apply Nat.eq_of_testBit_eq
  intro q
  by_cases hq : q < 32
  · exact h q hq
  · have hpow : (4294967296 : Nat) ≤ 2 ^ q := by
      have : (2 : Nat) ^ 32 ≤ 2 ^ q := Nat.pow_le_pow_right (by decide) (by omega)
      omega
    rw [Nat.testBit_lt_two_pow (by omega), Nat.testBit_lt_two_pow (by omega)]

theorem store_words (s : State) (b i v : Nat) (hs : WordsInRange s) (hv : v < 4294967296) :
    WordsInRange (s.store b i v) := by
  intro b' k
  unfold State.store
  simp only []
  split_ifs
  · exact hv
  · exact hs b' k

theorem set_future_words (s : State) (i alive : Int) (hs : WordsInRange s) :
    WordsInRange (set_future_cell_state s i alive) :=
  store_words s _ _ _ hs (blend_lt _ _ _ (toUInt_lt _))

theorem set_cell_state_words (s : State) (i alive : Int) (hs : WordsInRange s) :
    WordsInRange (set_cell_state s i alive) :=
  store_words s _ _ _ hs (blend_lt _ _ _ (toUInt_lt _))

theorem update_loops_words (s0 : State) (hs : WordsInRange s0) :
    WordsInRange (update_loops s0) := by
  have hH : toUInt CELLULAR_AUTOMATA_HEIGHT = 1000 := rfl
  unfold update_loops
  rw [hH]
  have houter := foldl_range_invariant
    (fun s y => (List.range 1000).foldl (fun s x => update_cell s x y) s)
    (fun _ s => WordsInRange s) 1000 s0 hs
    (by
      intro y t _ ht
      have hinner := foldl_range_invariant (fun s x => update_cell s x y)
        (fun _ s => WordsInRange s) 1000 t ht
        (by
          intro x u _ hu
          exact set_future_words u _ _ hu)
      exact hinner)
  exact houter

theorem swap_buffer_words (t : State) (h : WordsInRange t) : WordsInRange (swap_buffer t) := h

theorem update_words (s : State) (hs : WordsInRange s) :
    WordsInRange (cellular_automata_update s) := by
  rw [cellular_automata_update_eq]
  exact swap_buffer_words _ (update_loops_words s hs)

theorem update_cell_current_buffer (s : State) (x y : Nat) :
    (update_cell s x y).current_buffer = s.current_buffer := rfl

/-- The loops of the stepper write to no buffer but the future one. -/
theorem update_loops_frame (s0 : State) : FutureOnly s0 (update_loops s0) := by
  have hH : toUInt CELLULAR_AUTOMATA_HEIGHT = 1000 := rfl
  unfold update_loops
  rw [hH]
  have houter := foldl_range_invariant
    (fun s y => (List.range 1000).foldl (fun s x => update_cell s x y) s)
    (fun _ s => FutureOnly s0 s) 1000 s0 ⟨rfl, fun _ _ => rfl⟩
    (by
      intro y t _ ht
      have hinner := foldl_range_invariant (fun s x => update_cell s x y)
        (fun _ s => FutureOnly s0 s) 1000 t ht
        (by
          intro x u _ hu
          refine ⟨(update_cell_current_buffer u x y).trans hu.1, ?_⟩
          intro b hb
          have hstep : (update_cell u x y).cells_buffers b = u.cells_buffers b :=
            store_other u _ _ _ _ (by rw [hu.1]; exact hb)
          exact hstep.trans (hu.2 b hb))
      exact hinner)
  exact houter

theorem swap_buffer_frame (s0 t : State) (h : FutureOnly s0 t) :
    (swap_buffer t).current_buffer = s0.current_buffer ^^^ 1 ∧
    ∀ b, b ≠ s0.current_buffer ^^^ 1 → (swap_buffer t).cells_buffers b = s0.cells_buffers b := by
  refine ⟨?_, h.2⟩
  rw [swap_buffer_current_buffer, h.1]

theorem update_frame (s : State) :
    (cellular_automata_update s).current_buffer = s.current_buffer ^^^ 1 ∧
    ∀ b, b ≠ s.current_buffer ^^^ 1 →
      (cellular_automata_update s).cells_buffers b = s.cells_buffers b := by
  rw [cellular_automata_update_eq]
  exact swap_buffer_frame s _ (update_loops_frame s)

theorem xor_one_twice (b : Nat) : (b ^^^ 1) ^^^ 1 = b := by
  rw [Nat.xor_assoc, Nat.xor_self, Nat.xor_zero]

/-! ## The blend against the plain conditional -/

theorem blend_alive (w p : Nat) (hw : w < 4294967296) (hp : p < 32) :
    blend w (2 ^ p) 1 = w ||| 2 ^ p := by
  have hm : 2 ^ p < 4294967296 := by
    have : (2 : Nat) ^ p < 2 ^ 32 := Nat.pow_lt_pow_right (by decide) hp
    omega
  apply word_eq_of_bits _ _ (blend_lt _ _ _ hm)
  · have h : w ||| 2 ^ p < 2 ^ 32 := Nat.or_lt_two_pow (by omega) (by omega)
    omega
  · intro q hq
    rw [testBit_blend w p q 1 hp hq (Or.inr rfl), testBit_or_two_pow]
    by_cases h : q = p
    · subst h; simp
    · have h' : ¬ p = q := fun e => h e.symm
      simp [h, h']

theorem blend_dead (w p : Nat) (hw : w < 4294967296) (hp : p < 32) :
    blend w (2 ^ p) 0 = w &&& (2 ^ 32 - (2 ^ p + 1)) := by
  have hm : 2 ^ p < 4294967296 := by
    have : (2 : Nat) ^ p < 2 ^ 32 := Nat.pow_lt_pow_right (by decide) hp
    omega
  apply word_eq_of_bits _ _ (blend_lt _ _ _ hm)
  · exact Nat.lt_of_le_of_lt Nat.and_le_left hw
  · intro q hq
    rw [testBit_blend w p q 0 hp hq (Or.inl rfl), testBit_and_not_two_pow w p q hp hq]
    by_cases h : q = p
    · subst h; simp
    · have h' : ¬ p = q := fun e => h e.symm
      simp [h, h']

theorem set_cell_state_alive (s : State) (i : Nat) (hi : i < 2147483648)
    (hs : WordsInRange s) : set_cell_state s (i : Int) 1 = set_cell_alive s (i : Int) := by
  unfold set_cell_state set_cell_alive
  simp only []
  have hw : ACTIVE_CELLS s (get_bit_index (i : Int)).toNat < 4294967296 := hs _ _
  rw [get_bit_mask_cast i hi, blend_alive _ _ hw (Nat.mod_lt _ (by decide))]

theorem set_cell_state_dead (s : State) (i : Nat) (hi : i < 2147483648)
    (hs : WordsInRange s) : set_cell_state s (i : Int) 0 = set_cell_dead s (i : Int) := by
  unfold set_cell_state set_cell_dead
  simp only []
  have hw : ACTIVE_CELLS s (get_bit_index (i : Int)).toNat < 4294967296 := hs _ _
  rw [get_bit_mask_cast i hi, blend_dead _ _ hw (Nat.mod_lt _ (by decide))]
  unfold get_bit_mask
  rw [get_bit_position_cast i hi, toUInt_not_shift _ (Nat.mod_lt _ (by decide))]

theorem set_cell_state_eq_plain (s : State) (i alive : Int) (hi : 0 ≤ i ∧ i < 1000000)
    (ha : alive = 0 ∨ alive = 1) (hs : WordsInRange s) :
    set_cell_state s i alive = set_cell_state_plain s i alive := by
  obtain ⟨hi0, hi1⟩ := hi
  lift i to Nat using hi0
  unfold set_cell_state_plain
  rcases ha with rfl | rfl
  · rw [if_neg (by decide), set_cell_state_dead s i (by omega) hs]
  · rw [if_pos (by decide), set_cell_state_alive s i (by omega) hs]

/-- Writing a cell of the future buffer is writing the cell of the active
buffer with the roles of the buffers exchanged. -/
theorem set_future_eq_swapped (s : State) (i alive : Int) :
    set_future_cell_state s i alive = swap_buffer (set_cell_state (swap_buffer s) i alive) := by
  unfold set_future_cell_state set_cell_state swap_buffer State.store FUTURE_CELLS ACTIVE_CELLS
  simp only [xor_one_twice]

theorem zeroState_words : WordsInRange zeroState := fun _ _ => by
  show (0 : Nat) < 4294967296
  decide

theorem fullState_words : WordsInRange fullState := fun _ _ => by
  show (4294967295 : Nat) < 4294967296
  decide

/-! ## Independence of the step from the future buffer -/

theorem get_cell_state_words_congr (s t : State)
    (h : ∀ k, k < 31250 → ACTIVE_CELLS s k = ACTIVE_CELLS t k) (i : Int) (h0 : 0 ≤ i)
    (h1 : i < 1000000) : get_cell_state s i = get_cell_state t i := by
  lift i to Nat using h0
  rw [get_cell_state_cast s i (by omega), get_cell_state_cast t i (by omega)]
  unfold cellBit
  rw [h (i / 32) (by omega)]

theorem liveMoore_congr (s t : State)
    (h : ∀ i : Int, 0 ≤ i → i < 1000000 → get_cell_state s i = get_cell_state t i)
    (x y : Int) : liveMooreNeighbours s x y = liveMooreNeighbours t x y := by
  unfold liveMooreNeighbours
  congr 1
  apply List.filter_congr
  intro d _
  rw [h _ (get_cell_index_range _ _).1 (get_cell_index_range _ _).2]

theorem nextValue_cells_congr (s t : State)
    (h : ∀ i : Int, 0 ≤ i → i < 1000000 → get_cell_state s i = get_cell_state t i)
    (x y : Nat) (hx : x < 1000) (hy : y < 1000) : nextValue s x y = nextValue t x y := by
  rw [nextValue_eq s x y hx hy, nextValue_eq t x y hx hy, liveMoore_congr s t h,
    h _ (get_cell_index_range _ _).1 (get_cell_index_range _ _).2]

theorem cellBit_of_state (s t : State) (n : Nat) (hn : n < 2147483648)
    (h : get_cell_state s (n : Int) = get_cell_state t (n : Int)) :
    cellBit (ACTIVE_CELLS s) n = cellBit (ACTIVE_CELLS t) n := by
  rw [get_cell_state_cast s n hn, get_cell_state_cast t n hn] at h
  cases hs : cellBit (ACTIVE_CELLS s) n <;> cases ht : cellBit (ACTIVE_CELLS t) n <;>
    simp [hs, ht] at h ⊢

theorem update_cells_congr (s t : State)
    (h : ∀ i : Int, 0 ≤ i → i < 1000000 → get_cell_state s i = get_cell_state t i)
    (n : Nat) (hn : n < 1000000) :
    get_cell_state (cellular_automata_update s) (n : Int) =
      get_cell_state (cellular_automata_update t) (n : Int) := by
  have e : n = n / 1000 * 1000 + n % 1000 := by omega
  rw [e, update_cell_state s _ _ (by omega) (by omega),
    update_cell_state t _ _ (by omega) (by omega),
    nextValue_cells_congr s t h _ _ (by omega) (by omega)]

theorem active_word_lt (u : State) (h : WordsInRange u) (k : Nat) :
    ACTIVE_CELLS u k < 4294967296 := h _ _

theorem update_words_congr (s t : State)
    (hact : ∀ k, k < 31250 → ACTIVE_CELLS s k = ACTIVE_CELLS t k)
    (hs : WordsInRange s) (ht : WordsInRange t) (k : Nat) (hk : k < 31250) :
    ACTIVE_CELLS (cellular_automata_update s) k = ACTIVE_CELLS (cellular_automata_update t) k := by
  apply word_eq_of_bits _ _ (active_word_lt _ (update_words s hs) k)
    (active_word_lt _ (update_words t ht) k)
  intro q hq
  have hbit := cellBit_of_state (cellular_automata_update s) (cellular_automata_update t)
    (32 * k + q) (by omega)
    (update_cells_congr s t (get_cell_state_words_congr s t hact) (32 * k + q) (by omega))
  unfold cellBit at hbit
  have e1 : (32 * k + q) / 32 = k := by omega
  have e2 : (32 * k + q) % 32 = q := by omega
  rw [e1, e2] at hbit
  exact hbit

theorem staleFutureState_words : WordsInRange staleFutureState := by
  intro b k
  show (if b = 1 then 4294967295 else 0) < 4294967296
  split_ifs <;> decide

/-! ## Accesses stay in range -/

/-- A checked loop whose body never fails runs like the unchecked loop. -/
theorem foldlM_range_some {σ : Type} (f : σ → Nat → σ) (g : σ → Nat → Option σ)
    (P : Nat → σ → Prop) (n : Nat) (s : σ) (h0 : P 0 s)
    (hstep : ∀ i t, i < n → P i t → g t i = some (f t i) ∧ P (i + 1) (f t i)) :
    (List.range n).foldlM g s = some ((List.range n).foldl f s) := by
  have key : ∀ k, k ≤ n →
      (List.range k).foldlM g s = some ((List.range k).foldl f s) ∧
        P k ((List.range k).foldl f s) := by
    intro k
    induction k with
    | zero => intro _; exact ⟨rfl, h0⟩
    | succ k ih =>
      intro hk
      obtain ⟨hrun, hP⟩ := ih (by omega)
      obtain ⟨hg, hP'⟩ := hstep k _ (by omega) hP
      rw [List.range_succ, List.foldlM_append, List.foldl_append, hrun]
      simp only [Option.bind_eq_bind, Option.some_bind, List.foldlM_cons, List.foldlM_nil,
        List.foldl_cons, List.foldl_nil, hg]
      exact ⟨rfl, hP'⟩
  exact (key n (Nat.le_refl n)).1

theorem get_bit_index_nat (n : Nat) (hn : n < 2147483648) :
    get_bit_index (n : Int) = ((n / 32 : Nat) : Int) := by
  unfold get_bit_index toInt toSizeT
  simp only [BITS_PER_INT]
  omega

theorem get_bit_position_nat (n : Nat) (_hn : n < 2147483648) :
    get_bit_position (n : Int) = ((n % 32 : Nat) : Int) := by
  unfold get_bit_position toInt toSizeT
  simp only [BITS_PER_INT]
  omega

theorem checkedSubscript_cell (b n : Nat) (hb : b < 2) (hn : n < 1000000) :
    checkedSubscript b (get_bit_index (n : Int)) = some (get_bit_index (n : Int)).toNat := by
  have hsize : (CELLULAR_AUTOMATA_SIZE : Int) = 31250 := by decide
  unfold checkedSubscript
  rw [hsize, get_bit_index_nat n (by omega), if_pos]
  omega

theorem get_bit_mask_checked_cell (n : Nat) (hn : n < 1000000) :
    get_bit_mask_checked (n : Int) = some (get_bit_mask (n : Int)) := by
  unfold get_bit_mask_checked checkedShift get_bit_mask
  rw [get_bit_position_nat n (by omega), if_pos (by omega)]
  rfl

theorem get_cell_state_checked_cell (s : State) (n : Nat) (hcb : s.current_buffer < 2)
    (hn : n < 1000000) :
    get_cell_state_checked s (n : Int) = some (get_cell_state s (n : Int)) := by
  unfold get_cell_state_checked
  rw [checkedSubscript_cell _ n hcb hn, get_bit_mask_checked_cell n hn]
  rfl

theorem set_future_checked_cell (s : State) (n : Nat) (alive : Int)
    (hcb : s.current_buffer ^^^ 1 < 2) (hn : n < 1000000) :
    set_future_cell_state_checked s (n : Int) alive =
      some (set_future_cell_state s (n : Int) alive) := by
  unfold set_future_cell_state_checked
  rw [checkedSubscript_cell _ n hcb hn, get_bit_mask_checked_cell n hn]
  rfl

theorem get_cell_state_checked_range (s : State) (i : Int) (hcb : s.current_buffer < 2)
    (h0 : 0 ≤ i) (h1 : i < 1000000) :
    get_cell_state_checked s i = some (get_cell_state s i) := by
  lift i to Nat using h0
  exact get_cell_state_checked_cell s i hcb (by omega)

theorem set_future_checked_range (s : State) (i alive : Int)
    (hcb : s.current_buffer ^^^ 1 < 2) (h0 : 0 ≤ i) (h1 : i < 1000000) :
    set_future_cell_state_checked s i alive = some (set_future_cell_state s i alive) := by
  lift i to Nat using h0
  exact set_future_checked_cell s i alive hcb (by omega)

theorem offset_lookup (i : Nat) (hi : i < 8) :
    NEIGHBORS_OFFSET[i]? = some (NEIGHBORS_OFFSET.getD i (0, 0)) ∧
    NEIGHBORS_OFFSET.getD i (0, 0) ∈ NEIGHBORS_OFFSET := by
  interval_cases i <;> decide

/-- The index computed for the neighbour at offset `d` of a grid cell. -/
theorem neighbour_index_range (x y : Nat) (d : Int × Int) (hx : x < 1000) (hy : y < 1000)
    (hd : d ∈ NEIGHBORS_OFFSET) :
    0 ≤ get_cell_index_fast (toInt (toUInt (x + toUInt d.1))) (toInt (toUInt (y + toUInt d.2))) ∧
    get_cell_index_fast (toInt (toUInt (x + toUInt d.1))) (toInt (toUInt (y + toUInt d.2))) <
      1000000 := by
  have hb := offset_bounds d hd
  rw [neighbour_coordinate x d.1 hx hb.1, neighbour_coordinate y d.2 hy hb.2,
    get_cell_index_fast_eq _ _ (by omega) (by omega)]
  exact get_cell_index_range _ _

theorem count_checked_eq (s : State) (x y : Nat) (hcb : s.current_buffer < 2) (hx : x < 1000)
    (hy : y < 1000) :
    count_alive_neighboring_cells_checked s x y = some (count_alive_neighboring_cells s x y) := by
  have h8 : toUInt CELLULAR_AUTOMATA_NUM_NEIGHBORS = 8 := rfl
  unfold count_alive_neighboring_cells_checked count_alive_neighboring_cells
  rw [h8]
  have hrun := foldlM_range_some
    (fun (sum : Int) i =>
      toInt (sum + get_cell_state s (get_cell_index_fast
        (toInt (toUInt (x + toUInt (NEIGHBORS_OFFSET.getD i (0, 0)).1)))
        (toInt (toUInt (y + toUInt (NEIGHBORS_OFFSET.getD i (0, 0)).2))))))
    (fun (sum : Int) i => do
      let d ← NEIGHBORS_OFFSET[i]?
      let v ← get_cell_state_checked s (get_cell_index_fast
        (toInt (toUInt (x + toUInt d.1))) (toInt (toUInt (y + toUInt d.2))))
      pure (toInt (sum + v)))
    (fun _ _ => True) 8 0 trivial
    (by
      intro i t hi _
      obtain ⟨hl, hm⟩ := offset_lookup i hi
      obtain ⟨hr0, hr1⟩ := neighbour_index_range x y _ hx hy hm
      refine ⟨?_, trivial⟩
      simp only [hl, Option.bind_eq_bind, Option.some_bind,
        get_cell_state_checked_range s _ hcb hr0 hr1]
      rfl)
  exact hrun

theorem update_cell_checked_eq (s : State) (x y : Nat)
    (hcb : s.current_buffer = 0 ∨ s.current_buffer = 1) (hx : x < 1000) (hy : y < 1000) :
    update_cell_checked s x y = some (update_cell s x y) := by
  have hlt : s.current_buffer < 2 := by omega
  have hlt' : s.current_buffer ^^^ 1 < 2 := by
    rcases hcb with h | h <;> rw [h] <;> decide
  have hidx := get_cell_index_range (toInt x) (toInt y)
  unfold update_cell_checked update_cell
  simp only [count_checked_eq s x y hlt hx hy, Option.bind_eq_bind, Option.some_bind,
    get_cell_state_checked_range s _ hlt hidx.1 hidx.2,
    set_future_checked_range s _ _ hlt' hidx.1 hidx.2]

theorem update_loops_checked_eq (s0 : State)
    (hcb : s0.current_buffer = 0 ∨ s0.current_buffer = 1) :
    (List.range 1000).foldlM
      (fun s y => (List.range 1000).foldlM (fun s x => update_cell_checked s x y) s) s0 =
    some ((List.range 1000).foldl
      (fun s y => (List.range 1000).foldl (fun s x => update_cell s x y) s) s0) := by
  have houter := foldlM_range_some
    (fun s y => (List.range 1000).foldl (fun s x => update_cell s x y) s)
    (fun s y => (List.range 1000).foldlM (fun s x => update_cell_checked s x y) s)
    (fun _ s => s.current_buffer = s0.current_buffer) 1000 s0 rfl
    (by
      intro y t hy ht
      have hinv := foldl_range_invariant (fun s x => update_cell s x y)
        (fun _ s => s.current_buffer = s0.current_buffer) 1000 t ht
        (by
          intro x u _ hu
          exact (update_cell_current_buffer u x y).trans hu)
      have hinner := foldlM_range_some (fun s x => update_cell s x y)
        (fun s x => update_cell_checked s x y)
        (fun _ s => s.current_buffer = s0.current_buffer) 1000 t ht
        (by
          intro x u hx hu
          exact ⟨update_cell_checked_eq u x y (by rw [hu]; exact hcb) hx hy,
            (update_cell_current_buffer u x y).trans hu⟩)
      exact ⟨hinner, hinv⟩)
  exact houter

theorem update_checked_eq (s : State) (hcb : s.current_buffer = 0 ∨ s.current_buffer = 1) :
    cellular_automata_update_checked s = some (cellular_automata_update s) := by
  have hH : toUInt CELLULAR_AUTOMATA_HEIGHT = 1000 := rfl
  unfold cellular_automata_update_checked cellular_automata_update
  rw [hH, update_loops_checked_eq s hcb]
  rfl

/-! ## Rendering -/

theorem color_lookup (s : State) (i : Int) :
    CELL_STATE_COLOR.getD (get_cell_state s i).toNat ⟨0, 0, 0, 0⟩ =
      if get_cell_state s i = 1 then ⟨255, 255, 255, 255⟩ else ⟨0, 0, 0, 255⟩ := by
  rcases get_cell_state_bool s i with h | h <;> rw [h] <;> rfl

theorem screen_coordinate (x : Nat) (hx : x < 100) :
    toInt (toUInt ((x : Int) * ((toUInt CELL_SIZE : Nat) : Int))) = 10 * (x : Int) := by
  have h10 : toUInt CELL_SIZE = 10 := rfl
  rw [h10]
  unfold toInt toUInt
  omega

theorem toInt_coordinate (x : Nat) (hx : x < 100) : toInt (x : Int) = x := by
  unfold toInt
  omega

theorem draw_call_eq (s : State) (x y : Nat) (hx : x < 100) (hy : y < 100)
    (calls : List DrawCall) :
    DrawRectangle calls
      (toInt (toUInt (x * toUInt CELL_SIZE)))
      (toInt (toUInt (y * toUInt CELL_SIZE)))
      CELL_SIZE
      CELL_SIZE
      (CELL_STATE_COLOR.getD
        (get_cell_state s (get_cell_index (toInt x) (toInt y))).toNat ⟨0, 0, 0, 0⟩) =
    calls ++ [viewportCall s x y] := by
  unfold DrawRectangle viewportCall
  rw [screen_coordinate x hx, screen_coordinate y hy, toInt_coordinate x hx,
    toInt_coordinate y hy, color_lookup]

/-- A loop that only records one call per iteration. -/
theorem foldl_record (s : State) (f : State → Nat → List DrawCall → List DrawCall)
    (g : Nat → List DrawCall) (n : Nat) (calls : List DrawCall)
    (h : ∀ i, i < n → ∀ l, f s i l = l ++ g i) :
    (List.range n).foldl (fun (w : State × List DrawCall) i => (w.1, f w.1 i w.2)) (s, calls) =
      (s, calls ++ (List.range n).flatMap g) := by
  have hinv := foldl_range_invariant
    (fun (w : State × List DrawCall) i => (w.1, f w.1 i w.2))
    (fun k w => w = (s, calls ++ (List.range k).flatMap g)) n (s, calls)
    (by simp)
    (by
      intro i w hi hw
      subst hw
      simp only [h i hi, List.range_succ, List.flatMap_append, List.flatMap_singleton,
        List.append_assoc])
  exact hinv

theorem draw_row (s : State) (y : Nat) (hy : y < 100) (calls : List DrawCall) :
    (List.range 100).foldl
      (fun (w : State × List DrawCall) (x : Nat) =>
        (w.1, DrawRectangle w.2
          (toInt (toUInt (x * toUInt CELL_SIZE)))
          (toInt (toUInt (y * toUInt CELL_SIZE)))
          CELL_SIZE
          CELL_SIZE
          (CELL_STATE_COLOR.getD
            (get_cell_state w.1 (get_cell_index (toInt x) (toInt y))).toNat ⟨0, 0, 0, 0⟩)))
      (s, calls) =
    (s, calls ++ (List.range 100).map (fun x => viewportCall s x y)) := by
  have h := foldl_record s
    (fun (t : State) (x : Nat) (l : List DrawCall) => DrawRectangle l
      (toInt (toUInt (x * toUInt CELL_SIZE)))
      (toInt (toUInt (y * toUInt CELL_SIZE)))
      CELL_SIZE
      CELL_SIZE
      (CELL_STATE_COLOR.getD
        (get_cell_state t (get_cell_index (toInt x) (toInt y))).toNat ⟨0, 0, 0, 0⟩))
    (fun x => [viewportCall s x y]) 100 calls
    (fun x hx l => draw_call_eq s x y hx hy l)
  have hm : (List.range 100).flatMap (fun x => [viewportCall s x y]) =
      (List.range 100).map (fun x => viewportCall s x y) := by
    induction (List.range 100) with
    | nil => rfl
    | cons a l ih => simp only [List.flatMap_cons, List.map_cons, ih, List.singleton_append]
  rw [hm] at h
  exact h

theorem draw_eq (s : State) (calls : List DrawCall) :
    cellular_automata_draw s calls = (s, calls ++ viewportCalls s) := by
  have h100 : toUInt DISPLAYED_CELLS_HEIGHT = 100 := rfl
  unfold cellular_automata_draw viewportCalls
  rw [h100]
  have hinv := foldl_range_invariant
    (fun (w : State × List DrawCall) (y : Nat) =>
      (List.range 100).foldl
        (fun (w : State × List DrawCall) (x : Nat) =>
          (w.1, DrawRectangle w.2
            (toInt (toUInt (x * toUInt CELL_SIZE)))
            (toInt (toUInt (y * toUInt CELL_SIZE)))
            CELL_SIZE
            CELL_SIZE
            (CELL_STATE_COLOR.getD
              (get_cell_state w.1 (get_cell_index (toInt x) (toInt y))).toNat ⟨0, 0, 0, 0⟩)))
        w)
    (fun k w => w = (s, calls ++
      (List.range k).flatMap (fun y => (List.range 100).map (fun x => viewportCall s x y))))
    100 (s, calls) (by simp)
    (by
      intro y w hy hw
      subst hw
      beta_reduce
      rw [draw_row s y hy, List.range_succ y, List.flatMap_append, List.flatMap_singleton,
        List.append_assoc])
  exact hinv

theorem mem_viewportCalls (s : State) (c : DrawCall) :
    c ∈ viewportCalls s ↔ ∃ y, y < 100 ∧ ∃ x, x < 100 ∧ viewportCall s x y = c := by
  unfold viewportCalls
  simp only [List.mem_flatMap, List.mem_map, List.mem_range]

theorem viewportCall_position (s : State) (x y : Nat) :
    (viewportCall s x y).posX = 10 * (x : Int) ∧ (viewportCall s x y).posY = 10 * (y : Int) :=
  ⟨rfl, rfl⟩

theorem viewportCall_inj (s : State) (x y x' y' : Nat)
    (h : viewportCall s x y = viewportCall s x' y') : x = x' ∧ y = y' := by
  have h1 : (viewportCall s x y).posX = (viewportCall s x' y').posX := by rw [h]
  have h2 : (viewportCall s x y).posY = (viewportCall s x' y').posY := by rw [h]
  rw [(viewportCall_position s x y).1, (viewportCall_position s x' y').1] at h1
  rw [(viewportCall_position s x y).2, (viewportCall_position s x' y').2] at h2
  omega

theorem nodup_viewportCalls (s : State) : (viewportCalls s).Nodup := by
  unfold viewportCalls
  rw [List.nodup_flatMap]
  constructor
  · intro y _
    exact List.Nodup.map_on (fun a _ b _ h => (viewportCall_inj s a y b y h).1)
      (List.nodup_range 100)
  · apply List.Nodup.pairwise_of_forall_ne (List.nodup_range 100)
    intro a _ b _ hab
    show List.Disjoint _ _
    intro c hca hcb
    rw [List.mem_map] at hca hcb
    obtain ⟨x, _, hx⟩ := hca
    obtain ⟨x', _, hx'⟩ := hcb
    exact hab (viewportCall_inj s x a x' b (hx.trans hx'.symm)).2

theorem length_flatMap_const {α β : Type} (l : List α) (f : α → List β) (n : Nat)
    (h : ∀ a, (f a).length = n) : (l.flatMap f).length = l.length * n := by
  induction l with
  | nil => simp
  | cons a l ih =>
    rw [List.flatMap_cons, List.length_append, ih, h a, List.length_cons]
    ring

theorem length_viewportCalls (s : State) : (viewportCalls s).length = 10000 := by
  unfold viewportCalls
  rw [length_flatMap_const _ _ 100 (fun y => by rw [List.length_map, List.length_range]),
    List.length_range]

/-- Exactly one call of the frame is at the screen position of cell `(x, y)`. -/
theorem one_call_per_cell (s : State) (x y : Nat) (hx : x < 100) (hy : y < 100) :
    (viewportCalls s).countP (fun c => decide (c.posX = 10 * (x : Int) ∧ c.posY = 10 * (y : Int)))
      = 1 := by
  have hmem : viewportCall s x y ∈ viewportCalls s :=
    (mem_viewportCalls s _).2 ⟨y, hy, x, hx, rfl⟩
  have hcount := List.count_eq_one_of_mem (nodup_viewportCalls s) hmem
  rw [List.count_eq_countP] at hcount
  rw [← hcount]
  apply List.countP_congr
  intro c hc
  obtain ⟨y', _, x', _, rfl⟩ := (mem_viewportCalls s c).1 hc
  simp only [decide_eq_true_eq, beq_iff_eq]
  constructor
  · intro h
    rw [(viewportCall_position s x' y').1, (viewportCall_position s x' y').2] at h
    have hx' : x' = x := by omega
    have hy' : y' = y := by omega
    rw [hx', hy']
  · intro h
    rw [h]
    exact viewportCall_position s x y

/-! ## Claims -/

/-- C1: for every state with `current_buffer` in {0, 1} and every cell
`(x, y)` of the grid, after one `cellular_automata_update` the state of the
cell read from the new active buffer is 1 exactly when, in the buffer active
before the call, the cell had exactly 3 live cells among its 8 toroidal Moore
neighbours, or was alive and had exactly 2; otherwise it is 0. -/
theorem cellular_automata_update_rule (s : State)
    (_hcb : s.current_buffer = 0 ∨ s.current_buffer = 1) (x y : Int)
    (hx : 0 ≤ x ∧ x < 1000) (hy : 0 ≤ y ∧ y < 1000) :
    get_cell_state (cellular_automata_update s) (get_cell_index x y) =
      if liveMooreNeighbours s x y = 3 ∨
          (get_cell_state s (get_cell_index x y) = 1 ∧ liveMooreNeighbours s x y = 2)
      then 1 else 0 := by
  rw [step_cell s x y hx hy]
  unfold lifeRule
  by_cases h3 : liveMooreNeighbours s x y = 3 <;>
    by_cases h2 : liveMooreNeighbours s x y = 2 <;>
    by_cases hE : get_cell_state s (get_cell_index x y) = 1 <;> simp [h3, h2, hE]

/-- Witness of C1: the middle cell above the blinker written by
`setup_oscillator` into the cleared grid. -/
theorem cellular_automata_update_rule_witness :
    ((setup_oscillator zeroState).current_buffer = 0 ∨
      (setup_oscillator zeroState).current_buffer = 1) ∧
    ((0 : Int) ≤ 5 ∧ (5 : Int) < 1000) ∧ ((0 : Int) ≤ 4 ∧ (4 : Int) < 1000) ∧
    get_cell_state (cellular_automata_update (setup_oscillator zeroState)) (get_cell_index 5 4) =
      if liveMooreNeighbours (setup_oscillator zeroState) 5 4 = 3 ∨
          (get_cell_state (setup_oscillator zeroState) (get_cell_index 5 4) = 1 ∧
            liveMooreNeighbours (setup_oscillator zeroState) 5 4 = 2)
      then 1 else 0 :=
  ⟨Or.inl rfl, ⟨by decide, by decide⟩, ⟨by decide, by decide⟩,
    cellular_automata_update_rule (setup_oscillator zeroState) (Or.inl rfl) 5 4
      ⟨by decide, by decide⟩ ⟨by decide, by decide⟩⟩

/-- C2: `update_cell` writes, for its cell, the value
`(S == 3) || (E == 1 && S == 2)` of the cell state `E` and the neighbour count
`S`; for `E` in {0, 1} and `S` in 0..8 this value is 1 exactly when
(`E = 0` and `S = 3`) or (`E = 1` and `S` is 2 or 3), and 0 otherwise. -/
theorem update_cell_rule (s : State) (x y : Nat) (E S : Int) (hE : E = 0 ∨ E = 1)
    (hS : 0 ≤ S ∧ S ≤ 8) :
    update_cell s x y =
      set_future_cell_state s (get_cell_index (toInt x) (toInt y))
        (next_cell_state (get_cell_state s (get_cell_index (toInt x) (toInt y)))
          (count_alive_neighboring_cells s x y)) ∧
    next_cell_state E S = c_or (c_eq S 3) (c_and (c_eq E 1) (c_eq S 2)) ∧
    next_cell_state E S = if (E = 0 ∧ S = 3) ∨ (E = 1 ∧ (S = 2 ∨ S = 3)) then 1 else 0 :=
  ⟨rfl, rfl, next_cell_state_cases E S hE hS⟩

/-- Witness of C2: a live cell with two live neighbours. -/
theorem update_cell_rule_witness :
    ((1 : Int) = 0 ∨ (1 : Int) = 1) ∧ ((0 : Int) ≤ 2 ∧ (2 : Int) ≤ 8) ∧
    next_cell_state 1 2 = 1 :=
  ⟨Or.inr rfl, ⟨by decide, by decide⟩,
    ((update_cell_rule zeroState 0 0 1 2 (Or.inr rfl) ⟨by decide, by decide⟩).2.2).trans
      (by decide)⟩

/-- C3: for all 32-bit signed `x` and `y`, `get_cell_index x y` is
`(y mod 1000) * 1000 + (x mod 1000)` with the non-negative remainder, no
intermediate signed operation overflows, the index of `(x, y)` is the index
of `(x mod 1000, y mod 1000)`, and the result lies in `[0, 1000000)`. -/
theorem get_cell_index_wraps (x y : Int) (_hx : -2147483648 ≤ x ∧ x < 2147483648)
    (_hy : -2147483648 ≤ y ∧ y < 2147483648) :
    get_cell_index x y = (y % 1000) * 1000 + x % 1000 ∧
    get_cell_index_checked x y = some (get_cell_index x y) ∧
    get_cell_index x y = get_cell_index (x % 1000) (y % 1000) ∧
    0 ≤ get_cell_index x y ∧ get_cell_index x y < 1000000 :=
  ⟨get_cell_index_eq x y, by rw [get_cell_index_checked_eq, get_cell_index_eq],
    (get_cell_index_mod x y).symm, get_cell_index_range x y⟩

/-- Witness of C3: the smallest `int` as column and the largest as row. -/
theorem get_cell_index_wraps_witness :
    ((-2147483648 : Int) ≤ -2147483648 ∧ (-2147483648 : Int) < 2147483648) ∧
    ((-2147483648 : Int) ≤ 2147483647 ∧ (2147483647 : Int) < 2147483648) ∧
    get_cell_index (-2147483648) 2147483647 = 647352 :=
  ⟨⟨by decide, by decide⟩, ⟨by decide, by decide⟩,
    ((get_cell_index_wraps (-2147483648) 2147483647 ⟨by decide, by decide⟩
      ⟨by decide, by decide⟩).1).trans (by decide)⟩

/-- C4: for every state and every cell `(x, y)` of the grid,
`count_alive_neighboring_cells x y` is the number of offsets of
`NEIGHBORS_OFFSET` whose neighbour, addressed by the modulo-based
`get_cell_index`, is alive in the active buffer; it lies in `[0, 8]`; the
unsigned 32-bit sums `x + dx` and `y + dy`, converted to `int`, are the exact
sums; and the wrap is toroidal: column -1 is column 999, column 1000 is
column 0, and likewise for the rows. -/
theorem count_alive_neighboring_cells_spec (s : State) (x y : Nat) (hx : x < 1000)
    (hy : y < 1000) :
    count_alive_neighboring_cells s x y = ((liveOffsets s x y).length : Int) ∧
    (0 ≤ count_alive_neighboring_cells s x y ∧ count_alive_neighboring_cells s x y ≤ 8) ∧
    (∀ d ∈ NEIGHBORS_OFFSET, toInt (toUInt (x + toUInt d.1)) = x + d.1 ∧
      toInt (toUInt (y + toUInt d.2)) = y + d.2) ∧
    get_cell_index (0 + -1) y = get_cell_index 999 y ∧
    get_cell_index (999 + 1) y = get_cell_index 0 y ∧
    get_cell_index x (0 + -1) = get_cell_index x 999 ∧
    get_cell_index x (999 + 1) = get_cell_index x 0 := by
  have hlen : count_alive_neighboring_cells s x y = ((liveOffsets s x y).length : Int) := by
    rw [count_eq_sum s x y hx hy, liveOffsets_length]
  have hle : (liveOffsets s x y).length ≤ 8 :=
    le_trans (List.length_filter_le _ _) (by decide)
  have hoff : ∀ d ∈ NEIGHBORS_OFFSET, toInt (toUInt (x + toUInt d.1)) = x + d.1 ∧
      toInt (toUInt (y + toUInt d.2)) = y + d.2 := by
    intro d hd
    have hb := offset_bounds d hd
    exact ⟨neighbour_coordinate x d.1 hx hb.1, neighbour_coordinate y d.2 hy hb.2⟩
  refine ⟨hlen, ⟨by omega, by omega⟩, hoff, ?_, ?_, ?_, ?_⟩ <;>
    (rw [get_cell_index_eq, get_cell_index_eq]; omega)

/-- Witness of C4: the corner cell `(0, 0)` whose only live neighbour is the
opposite corner `(999, 999)`. -/
theorem count_alive_neighboring_cells_spec_witness :
    (0 < 1000) ∧
    count_alive_neighboring_cells (set_cell_alive zeroState (get_cell_index 999 999)) 0 0 =
      ((liveOffsets (set_cell_alive zeroState (get_cell_index 999 999))
        ((0 : Nat) : Int) ((0 : Nat) : Int)).length : Int) :=
  ⟨by decide,
    (count_alive_neighboring_cells_spec (set_cell_alive zeroState (get_cell_index 999 999)) 0 0
      (by decide) (by decide)).1⟩

/-- C8: for every `n` and every state whose active buffer has all 1,000,000
cells dead (future buffer arbitrary), after `n` calls of
`cellular_automata_update` every cell of the active buffer is dead; one call
already preserves "the active buffer is all dead". -/
theorem empty_grid_stays_empty (n : Nat) (s : State)
    (hdead : ∀ i : Int, 0 ≤ i → i < 1000000 → get_cell_state s i = 0) :
    (∀ i : Int, 0 ≤ i → i < 1000000 →
      get_cell_state (Nat.iterate cellular_automata_update n s) i = 0) ∧
    (∀ i : Int, 0 ≤ i → i < 1000000 → get_cell_state (cellular_automata_update s) i = 0) :=
  ⟨iterate_all_dead n s hdead, update_all_dead s hdead⟩

/-- Witness of C8: three steps from the cleared grid. -/
theorem empty_grid_stays_empty_witness :
    (∀ i : Int, 0 ≤ i → i < 1000000 → get_cell_state zeroState i = 0) ∧
    (∀ i : Int, 0 ≤ i → i < 1000000 →
      get_cell_state (Nat.iterate cellular_automata_update 3 zeroState) i = 0) :=
  ⟨zeroState_all_dead, (empty_grid_stays_empty 3 zeroState zeroState_all_dead).1⟩

/-- C9: in a state whose active buffer has all 1,000,000 cells alive (future
buffer arbitrary), `count_alive_neighboring_cells x y` is 8 for every cell of
the grid, border rows and columns included, and after one
`cellular_automata_update` every cell of the active buffer is dead. -/
theorem full_grid_dies (s : State)
    (halive : ∀ i : Int, 0 ≤ i → i < 1000000 → get_cell_state s i = 1) :
    (∀ x y : Nat, x < 1000 → y < 1000 → count_alive_neighboring_cells s x y = 8) ∧
    (∀ i : Int, 0 ≤ i → i < 1000000 → get_cell_state (cellular_automata_update s) i = 0) := by
  refine ⟨?_, update_all_alive s halive⟩
  intro x y hx hy
  rw [count_eq_liveMoore s x y hx hy, liveMoore_uniform s 1 halive]
  rfl

/-- Witness of C9: the grid with every bit set; the corner cell `(0, 999)`
has 8 live neighbours. -/
theorem full_grid_dies_witness :
    (∀ i : Int, 0 ≤ i → i < 1000000 → get_cell_state fullState i = 1) ∧
    count_alive_neighboring_cells fullState 0 999 = 8 ∧
    (∀ i : Int, 0 ≤ i → i < 1000000 →
      get_cell_state (cellular_automata_update fullState) i = 0) :=
  ⟨fullState_all_alive,
    (full_grid_dies fullState fullState_all_alive).1 0 999 (by decide) (by decide),
    (full_grid_dies fullState fullState_all_alive).2⟩

/-- C10: for every state and every cell index `i` in `[0, 1000000)`, also
those with `i % 32 = 31` whose mask is the sign bit of `int`: after
`set_cell_alive i` the state of cell `i` is 1, after `set_cell_dead i` it is
0, and `get_cell_state` returns its value with the globals unchanged. -/
theorem set_then_get (s : State) (i : Int) (hi : 0 ≤ i ∧ i < 1000000) :
    get_cell_state (set_cell_alive s i) i = 1 ∧
    get_cell_state (set_cell_dead s i) i = 0 ∧
    get_cell_state_run s i = (get_cell_state s i, s) := by
  refine ⟨?_, ?_, rfl⟩
  · rw [get_cell_state_set_alive s i i hi hi, if_pos rfl]
  · rw [get_cell_state_set_dead s i i hi hi, if_pos rfl]

/-- Witness of C10: cell 31, stored in the sign bit of word 0. -/
theorem set_then_get_witness :
    ((0 : Int) ≤ 31 ∧ (31 : Int) < 1000000) ∧
    get_bit_mask 31 = -2147483648 ∧
    get_cell_state (set_cell_alive zeroState 31) 31 = 1 ∧
    get_cell_state (set_cell_dead fullState 31) 31 = 0 :=
  ⟨⟨by decide, by decide⟩, by decide,
    (set_then_get zeroState 31 ⟨by decide, by decide⟩).1,
    (set_then_get fullState 31 ⟨by decide, by decide⟩).2.1⟩

/-- C5: for every row `r` and column `c` of the grid (coordinates modulo
1000), from an active buffer whose live cells are exactly `(c, r)`,
`(c+1, r)`, `(c+2, r)`: after one `cellular_automata_update` the live cells
are exactly `(c+1, r-1)`, `(c+1, r)`, `(c+1, r+1)`, and after a second one
they are exactly `(c, r)`, `(c+1, r)`, `(c+2, r)` again. -/
theorem blinker_oscillates (s : State) (c r : Int) (hc : 0 ≤ c ∧ c < 1000)
    (hr : 0 ≤ r ∧ r < 1000)
    (hseed : ∀ x y : Int, 0 ≤ x ∧ x < 1000 → 0 ≤ y ∧ y < 1000 →
      get_cell_state s (get_cell_index x y) =
        if y = r ∧ (x = c ∨ x = (c + 1) % 1000 ∨ x = (c + 2) % 1000) then 1 else 0) :
    (∀ x y : Int, 0 ≤ x ∧ x < 1000 → 0 ≤ y ∧ y < 1000 →
      get_cell_state (cellular_automata_update s) (get_cell_index x y) =
        if x = (c + 1) % 1000 ∧ (y = (r - 1) % 1000 ∨ y = r ∨ y = (r + 1) % 1000)
        then 1 else 0) ∧
    (∀ x y : Int, 0 ≤ x ∧ x < 1000 → 0 ≤ y ∧ y < 1000 →
      get_cell_state (cellular_automata_update (cellular_automata_update s))
          (get_cell_index x y) =
        if y = r ∧ (x = c ∨ x = (c + 1) % 1000 ∨ x = (c + 2) % 1000) then 1 else 0) := by
  have h0 : LiveSet s c r [(0, 0), (1, 0), (2, 0)] := by
    intro x y hx hy
    rw [state_iff_of_ite _ _ _ (hseed x y hx hy)]
    simp only [List.mem_cons, Prod.mk.injEq, List.not_mem_nil, or_false]
    omega
  have h1 : LiveSet (cellular_automata_update s) c r [(1, 999), (1, 0), (1, 1)] :=
    liveSet_congr _ c r _ _ (liveSet_step s c r _ h0) (by decide) (by decide)
  have h2 : LiveSet (cellular_automata_update (cellular_automata_update s)) c r
      [(0, 0), (1, 0), (2, 0)] :=
    liveSet_congr _ c r _ _ (liveSet_step _ c r _ h1) (by decide) (by decide)
  constructor
  · intro x y hx hy
    apply state_ite_of_iff
    rw [h1 x y hx hy]
    simp only [List.mem_cons, Prod.mk.injEq, List.not_mem_nil, or_false]
    omega
  · intro x y hx hy
    apply state_ite_of_iff
    rw [h2 x y hx hy]
    simp only [List.mem_cons, Prod.mk.injEq, List.not_mem_nil, or_false]
    omega

/-- The seed of `setup_oscillator` on a cleared grid is the horizontal line
at row 5, columns 4 to 6. -/
theorem setup_oscillator_seed (x y : Int) (hx : 0 ≤ x ∧ x < 1000) (hy : 0 ≤ y ∧ y < 1000) :
    get_cell_state (setup_oscillator zeroState) (get_cell_index x y) =
      if y = 5 ∧ (x = 4 ∨ x = (4 + 1) % 1000 ∨ x = (4 + 2) % 1000) then 1 else 0 := by
  apply state_ite_of_iff
  have h := setup_oscillator_liveSet zeroState zeroState_all_dead x y hx hy
  rw [h]
  simp only [List.mem_cons, Prod.mk.injEq, List.not_mem_nil, or_false]
  omega

/-- Witness of C5: the seed written by `setup_oscillator`, `r = 5`, `c = 4`;
after one step cell `(5, 4)` is alive and cell `(4, 5)` is dead. -/
theorem blinker_oscillates_witness :
    (∀ x y : Int, 0 ≤ x ∧ x < 1000 → 0 ≤ y ∧ y < 1000 →
      get_cell_state (setup_oscillator zeroState) (get_cell_index x y) =
        if y = 5 ∧ (x = 4 ∨ x = (4 + 1) % 1000 ∨ x = (4 + 2) % 1000) then 1 else 0) ∧
    get_cell_state (cellular_automata_update (setup_oscillator zeroState))
      (get_cell_index 5 4) = 1 ∧
    get_cell_state (cellular_automata_update (setup_oscillator zeroState))
      (get_cell_index 4 5) = 0 :=
  ⟨setup_oscillator_seed,
    ((blinker_oscillates (setup_oscillator zeroState) 4 5 ⟨by decide, by decide⟩
      ⟨by decide, by decide⟩ setup_oscillator_seed).1 5 4 ⟨by decide, by decide⟩
      ⟨by decide, by decide⟩).trans (by decide),
    ((blinker_oscillates (setup_oscillator zeroState) 4 5 ⟨by decide, by decide⟩
      ⟨by decide, by decide⟩ setup_oscillator_seed).1 4 5 ⟨by decide, by decide⟩
      ⟨by decide, by decide⟩).trans (by decide)⟩

/-- C6: from `cellular_automata_initalize` followed by `setup_ship` alone the
live cells are exactly (11,10), (12,11), (10,12), (11,12), (12,12), and after
exactly 4 calls of `cellular_automata_update` the live cells of the whole grid
are exactly (12,11), (13,12), (11,13), (12,13), (13,13): the shape moved by
one cell along both axes, and every other cell is dead. -/
theorem glider_translates (s0 : State) :
    (∀ x y : Int, 0 ≤ x ∧ x < 1000 → 0 ≤ y ∧ y < 1000 →
      get_cell_state (setup_ship (cellular_automata_initalize s0)) (get_cell_index x y) =
        if (x, y) ∈ [((11 : Int), (10 : Int)), (12, 11), (10, 12), (11, 12), (12, 12)]
        then 1 else 0) ∧
    (∀ x y : Int, 0 ≤ x ∧ x < 1000 → 0 ≤ y ∧ y < 1000 →
      get_cell_state
          (cellular_automata_update (cellular_automata_update (cellular_automata_update
            (cellular_automata_update (setup_ship (cellular_automata_initalize s0))))))
          (get_cell_index x y) =
        if (x, y) ∈ [((12 : Int), (11 : Int)), (13, 12), (11, 13), (12, 13), (13, 13)]
        then 1 else 0) := by
  have h0 := setup_ship_liveSet _ (initalize_all_dead s0)
  have h4 := liveSet_step _ 0 0 _ (liveSet_step _ 0 0 _ (liveSet_step _ 0 0 _
    (liveSet_step _ 0 0 _ h0)))
  constructor
  · intro x y hx hy
    exact liveSet_origin _ _ (liveSet_congr _ 0 0 _ _ h0 (by decide) (by decide)) x y hx hy
  · intro x y hx hy
    exact liveSet_origin _ _ (liveSet_congr _ 0 0 _ _ h4 (by decide) (by decide)) x y hx hy

/-- Witness of C6: after 4 steps from the cleared grid, cell `(13, 13)` is
alive and the former glider cell `(11, 10)` is dead. -/
theorem glider_translates_witness :
    ((0 : Int) ≤ 13 ∧ (13 : Int) < 1000) ∧ ((0 : Int) ≤ 11 ∧ (11 : Int) < 1000) ∧
    ((0 : Int) ≤ 10 ∧ (10 : Int) < 1000) ∧
    get_cell_state
      (cellular_automata_update (cellular_automata_update (cellular_automata_update
        (cellular_automata_update (setup_ship (cellular_automata_initalize zeroState))))))
      (get_cell_index 13 13) = 1 ∧
    get_cell_state
      (cellular_automata_update (cellular_automata_update (cellular_automata_update
        (cellular_automata_update (setup_ship (cellular_automata_initalize zeroState))))))
      (get_cell_index 11 10) = 0 :=
  ⟨⟨by decide, by decide⟩, ⟨by decide, by decide⟩, ⟨by decide, by decide⟩,
    ((glider_translates zeroState).2 13 13 ⟨by decide, by decide⟩
      ⟨by decide, by decide⟩).trans (by decide),
    ((glider_translates zeroState).2 11 10 ⟨by decide, by decide⟩
      ⟨by decide, by decide⟩).trans (by decide)⟩

/-- C7: for every position `(x0, y0)` of the grid (coordinates modulo 1000),
from an active buffer whose live cells are exactly the 2x2 block `(x0, y0)`,
`(x0+1, y0)`, `(x0, y0+1)`, `(x0+1, y0+1)`: after one
`cellular_automata_update` exactly those 4 cells are alive and every other
cell of the grid is dead. -/
theorem block_is_stable (s : State) (x0 y0 : Int) (hx0 : 0 ≤ x0 ∧ x0 < 1000)
    (hy0 : 0 ≤ y0 ∧ y0 < 1000)
    (hseed : ∀ x y : Int, 0 ≤ x ∧ x < 1000 → 0 ≤ y ∧ y < 1000 →
      get_cell_state s (get_cell_index x y) =
        if (x = x0 ∨ x = (x0 + 1) % 1000) ∧ (y = y0 ∨ y = (y0 + 1) % 1000) then 1 else 0) :
    ∀ x y : Int, 0 ≤ x ∧ x < 1000 → 0 ≤ y ∧ y < 1000 →
      get_cell_state (cellular_automata_update s) (get_cell_index x y) =
        if (x = x0 ∨ x = (x0 + 1) % 1000) ∧ (y = y0 ∨ y = (y0 + 1) % 1000) then 1 else 0 := by
  have h0 : LiveSet s x0 y0 [(0, 0), (1, 0), (0, 1), (1, 1)] := by
    intro x y hx hy
    rw [state_iff_of_ite _ _ _ (hseed x y hx hy)]
    simp only [List.mem_cons, Prod.mk.injEq, List.not_mem_nil, or_false]
    omega
  have h1 : LiveSet (cellular_automata_update s) x0 y0 [(0, 0), (1, 0), (0, 1), (1, 1)] :=
    liveSet_congr _ x0 y0 _ _ (liveSet_step s x0 y0 _ h0) (by decide) (by decide)
  intro x y hx hy
  apply state_ite_of_iff
  rw [h1 x y hx hy]
  simp only [List.mem_cons, Prod.mk.injEq, List.not_mem_nil, or_false]
  omega

theorem cornerBlock_seed (x y : Int) (hx : 0 ≤ x ∧ x < 1000) (hy : 0 ≤ y ∧ y < 1000) :
    get_cell_state cornerBlock (get_cell_index x y) =
      if (x = 999 ∨ x = (999 + 1) % 1000) ∧ (y = 999 ∨ y = (999 + 1) % 1000) then 1 else 0 := by
  apply state_ite_of_iff
  have h : LiveSet cornerBlock 0 0 [(0, 0), (999, 0), (0, 999), (999, 999)] :=
    liveSet_set_alive _ _ 0 0 (by decide) (by decide)
      (liveSet_set_alive _ _ 999 0 (by decide) (by decide)
        (liveSet_set_alive _ _ 0 999 (by decide) (by decide)
          (liveSet_set_alive _ _ 999 999 (by decide) (by decide)
            (liveSet_all_dead zeroState zeroState_all_dead))))
  have h2 := h x y hx hy
  rw [h2]
  simp only [List.mem_cons, Prod.mk.injEq, List.not_mem_nil, or_false]
  omega

/-- Witness of C7: the block at `(999, 999)`, which wraps around both edges;
after one step its cell `(0, 0)` is alive and cell `(1, 1)` is dead. -/
theorem block_is_stable_witness :
    (∀ x y : Int, 0 ≤ x ∧ x < 1000 → 0 ≤ y ∧ y < 1000 →
      get_cell_state cornerBlock (get_cell_index x y) =
        if (x = 999 ∨ x = (999 + 1) % 1000) ∧ (y = 999 ∨ y = (999 + 1) % 1000)
        then 1 else 0) ∧
    get_cell_state (cellular_automata_update cornerBlock) (get_cell_index 0 0) = 1 ∧
    get_cell_state (cellular_automata_update cornerBlock) (get_cell_index 1 1) = 0 :=
  ⟨cornerBlock_seed,
    (block_is_stable cornerBlock 999 999 ⟨by decide, by decide⟩ ⟨by decide, by decide⟩
      cornerBlock_seed 0 0 ⟨by decide, by decide⟩ ⟨by decide, by decide⟩).trans (by decide),
    (block_is_stable cornerBlock 999 999 ⟨by decide, by decide⟩ ⟨by decide, by decide⟩
      cornerBlock_seed 1 1 ⟨by decide, by decide⟩ ⟨by decide, by decide⟩).trans (by decide)⟩

/-- C11: for every state and all cell indices `i`, `j` of the grid with
`j ≠ i`: after `set_cell_alive i` followed by `set_cell_dead i` the state of
cell `j` is what it was before both calls, and each of the two calls alone
already leaves the state of cell `j` unchanged. -/
theorem set_clear_isolation (s : State) (i j : Int) (hi : 0 ≤ i ∧ i < 1000000)
    (hj : 0 ≤ j ∧ j < 1000000) (hne : j ≠ i) :
    get_cell_state (set_cell_dead (set_cell_alive s i) i) j = get_cell_state s j ∧
    get_cell_state (set_cell_alive s i) j = get_cell_state s j ∧
    get_cell_state (set_cell_dead s i) j = get_cell_state s j := by
  refine ⟨?_, ?_, ?_⟩
  · rw [get_cell_state_set_dead _ i j hi hj, if_neg hne, get_cell_state_set_alive s i j hi hj,
      if_neg hne]
  · rw [get_cell_state_set_alive s i j hi hj, if_neg hne]
  · rw [get_cell_state_set_dead s i j hi hj, if_neg hne]

/-- Witness of C11: cells 31 and 30 share word 0; cell 30 of the full grid
stays alive while cell 31 is set and cleared. -/
theorem set_clear_isolation_witness :
    ((0 : Int) ≤ 31 ∧ (31 : Int) < 1000000) ∧ ((0 : Int) ≤ 30 ∧ (30 : Int) < 1000000) ∧
    (30 : Int) ≠ 31 ∧
    get_cell_state (set_cell_dead (set_cell_alive fullState 31) 31) 30 = 1 :=
  ⟨⟨by decide, by decide⟩, ⟨by decide, by decide⟩, by decide,
    ((set_clear_isolation fullState 31 30 ⟨by decide, by decide⟩ ⟨by decide, by decide⟩
      (by decide)).1).trans (by decide)⟩

/-- C12: for every state and every cell index `i` of the grid, applying
`set_cell_alive i` twice gives exactly the state, word for word, that
applying it once gives, and likewise for `set_cell_dead i`. -/
theorem set_idempotent (s : State) (i : Int) (_hi : 0 ≤ i ∧ i < 1000000) :
    set_cell_alive (set_cell_alive s i) i = set_cell_alive s i ∧
    set_cell_dead (set_cell_dead s i) i = set_cell_dead s i ∧
    (∀ b k, (set_cell_alive (set_cell_alive s i) i).cells_buffers b k =
      (set_cell_alive s i).cells_buffers b k) ∧
    (∀ b k, (set_cell_dead (set_cell_dead s i) i).cells_buffers b k =
      (set_cell_dead s i).cells_buffers b k) :=
  ⟨set_cell_alive_twice s i, set_cell_dead_twice s i,
    fun _ _ => by rw [set_cell_alive_twice], fun _ _ => by rw [set_cell_dead_twice]⟩

/-- Witness of C12: cell 31 of the cleared grid; word 0 is 2^31 after one or
two calls of `set_cell_alive`. -/
theorem set_idempotent_witness :
    ((0 : Int) ≤ 31 ∧ (31 : Int) < 1000000) ∧
    (set_cell_alive (set_cell_alive zeroState 31) 31).cells_buffers 0 0 = 2147483648 ∧
    (set_cell_alive zeroState 31).cells_buffers 0 0 = 2147483648 :=
  ⟨⟨by decide, by decide⟩,
    ((set_idempotent zeroState 31 ⟨by decide, by decide⟩).2.2.1 0 0).trans (by decide),
    by decide⟩

/-- C13: for every state whose words are `unsigned int` values, every cell
index `i` of the grid and every `alive` in {0, 1}: the blend of
`set_cell_state i alive` gives exactly the state that the plain conditional
gives, that of `set_cell_alive i` when `alive = 1` and of `set_cell_dead i`
when `alive = 0`; `set_future_cell_state i alive` does the same to the future
buffer and leaves the active buffer unchanged. -/
theorem blend_is_plain_conditional (s : State) (i alive : Int) (hi : 0 ≤ i ∧ i < 1000000)
    (ha : alive = 0 ∨ alive = 1) (hs : WordsInRange s) :
    set_cell_state s i alive = set_cell_state_plain s i alive ∧
    (alive = 1 → set_cell_state s i alive = set_cell_alive s i) ∧
    (alive = 0 → set_cell_state s i alive = set_cell_dead s i) ∧
    set_future_cell_state s i alive =
      swap_buffer (set_cell_state_plain (swap_buffer s) i alive) ∧
    ACTIVE_CELLS (set_future_cell_state s i alive) = ACTIVE_CELLS s := by
  have h := set_cell_state_eq_plain s i alive hi ha hs
  refine ⟨h, ?_, ?_, ?_, set_future_active s i alive⟩
  · intro h1
    rw [h, h1]
    rfl
  · intro h0
    rw [h, h0]
    rfl
  · rw [set_future_eq_swapped,
      set_cell_state_eq_plain (swap_buffer s) i alive hi ha (swap_buffer_words s hs)]

/-- Witness of C13: cell 31 of the full grid, in the sign-bit position, set
dead through the blend; word 0 becomes 2^31 - 1. -/
theorem blend_is_plain_conditional_witness :
    ((0 : Int) ≤ 31 ∧ (31 : Int) < 1000000) ∧ ((0 : Int) = 0 ∨ (0 : Int) = 1) ∧
    WordsInRange fullState ∧
    set_cell_state fullState 31 0 = set_cell_dead fullState 31 ∧
    (set_cell_state fullState 31 0).cells_buffers 0 0 = 2147483647 :=
  ⟨⟨by decide, by decide⟩, Or.inl rfl, fullState_words,
    (blend_is_plain_conditional fullState 31 0 ⟨by decide, by decide⟩ (Or.inl rfl)
      fullState_words).2.2.1 rfl,
    by decide⟩

/-- C14: for every prior content of the buffers, after
`cellular_automata_initalize` every cell of the active buffer is dead: all
`CELLULAR_AUTOMATA_SIZE = 31250` words of the active buffer are 0, and
`get_cell_state i = 0` for every cell index `i` of the grid. -/
theorem initalize_clears (s : State) :
    CELLULAR_AUTOMATA_SIZE = 31250 ∧
    (∀ k, k < CELLULAR_AUTOMATA_SIZE → ACTIVE_CELLS (cellular_automata_initalize s) k = 0) ∧
    (∀ i : Int, 0 ≤ i → i < 1000000 → get_cell_state (cellular_automata_initalize s) i = 0) :=
  ⟨by decide, (initalize_words s).2, initalize_all_dead s⟩

/-- Witness of C14: the last cell of the grid after clearing the full grid. -/
theorem initalize_clears_witness :
    (31249 < CELLULAR_AUTOMATA_SIZE) ∧ ((0 : Int) ≤ 999999) ∧ ((999999 : Int) < 1000000) ∧
    ACTIVE_CELLS (cellular_automata_initalize fullState) 31249 = 0 ∧
    get_cell_state (cellular_automata_initalize fullState) 999999 = 0 :=
  ⟨by decide, by decide, by decide,
    (initalize_clears fullState).2.1 31249 (by decide),
    (initalize_clears fullState).2.2 999999 (by decide) (by decide)⟩

/-- C15: no buffer access of the core is out of range. For all 32-bit `x`
and `y`, `get_bit_index (get_cell_index x y)` lies in `[0, 31250)`, the
length `CELLULAR_AUTOMATA_SIZE` of each buffer, and `get_bit_position` lies
in `[0, 32)`; during `cellular_automata_update` every cell index passed to
`get_cell_state` or `set_future_cell_state`, also those computed by
`get_cell_index_fast` for the neighbours of border cells, lies in
`[0, 1000000)`; and the stepper with checked subscripts and shift counts
never takes its error branch: it returns the state of the unchecked one. -/
theorem no_access_out_of_range (s : State)
    (hcb : s.current_buffer = 0 ∨ s.current_buffer = 1) (x y : Int)
    (_hx : -2147483648 ≤ x ∧ x < 2147483648) (_hy : -2147483648 ≤ y ∧ y < 2147483648) :
    CELLULAR_AUTOMATA_SIZE = 31250 ∧
    (0 ≤ get_bit_index (get_cell_index x y) ∧
      get_bit_index (get_cell_index x y) < (CELLULAR_AUTOMATA_SIZE : Int)) ∧
    (0 ≤ get_bit_position (get_cell_index x y) ∧ get_bit_position (get_cell_index x y) < 32) ∧
    (∀ cx cy : Nat, cx < 1000 → cy < 1000 →
      (0 ≤ get_cell_index (toInt cx) (toInt cy) ∧
        get_cell_index (toInt cx) (toInt cy) < 1000000) ∧
      ∀ d ∈ NEIGHBORS_OFFSET,
        0 ≤ get_cell_index_fast (toInt (toUInt (cx + toUInt d.1)))
          (toInt (toUInt (cy + toUInt d.2))) ∧
        get_cell_index_fast (toInt (toUInt (cx + toUInt d.1)))
          (toInt (toUInt (cy + toUInt d.2))) < 1000000) ∧
    cellular_automata_update_checked s = some (cellular_automata_update s) := by
  have hsize : (CELLULAR_AUTOMATA_SIZE : Int) = 31250 := by decide
  obtain ⟨h0, h1⟩ := get_cell_index_range x y
  generalize get_cell_index x y = i at h0 h1
  lift i to Nat using h0
  refine ⟨by decide, ?_, ?_, ?_, update_checked_eq s hcb⟩
  · rw [hsize, get_bit_index_nat i (by omega)]
    omega
  · rw [get_bit_position_nat i (by omega)]
    omega
  · intro cx cy hcx hcy
    exact ⟨get_cell_index_range _ _, fun d hd => neighbour_index_range cx cy d hcx hcy hd⟩

/-- Witness of C15: the stepper on the seeded blinker, with the extreme `int`
coordinates; the checked read itself fails one cell past the grid. -/
theorem no_access_out_of_range_witness :
    ((setup_oscillator zeroState).current_buffer = 0 ∨
      (setup_oscillator zeroState).current_buffer = 1) ∧
    ((-2147483648 : Int) ≤ -2147483648 ∧ (-2147483648 : Int) < 2147483648) ∧
    ((-2147483648 : Int) ≤ 2147483647 ∧ (2147483647 : Int) < 2147483648) ∧
    get_cell_state_checked zeroState 1000000 = none ∧
    get_cell_state_checked zeroState (-1) = none ∧
    cellular_automata_update_checked (setup_oscillator zeroState) =
      some (cellular_automata_update (setup_oscillator zeroState)) :=
  ⟨Or.inl rfl, ⟨by decide, by decide⟩, ⟨by decide, by decide⟩, by decide, by decide,
    (no_access_out_of_range (setup_oscillator zeroState) (Or.inl rfl) (-2147483648) 2147483647
      ⟨by decide, by decide⟩ ⟨by decide, by decide⟩).2.2.2.2⟩

/-- C16: for every state with `current_buffer` in {0, 1},
`cellular_automata_update` leaves every word of the buffer that was active
when the call started unchanged: it writes only to the other buffer and to
`current_buffer`, on return `current_buffer` is the other value of {0, 1},
and the unchanged generation before the step is now the future buffer. -/
theorem update_keeps_active_buffer (s : State)
    (hcb : s.current_buffer = 0 ∨ s.current_buffer = 1) :
    (∀ k, (cellular_automata_update s).cells_buffers s.current_buffer k =
      s.cells_buffers s.current_buffer k) ∧
    (∀ b, b ≠ 1 - s.current_buffer → ∀ k,
      (cellular_automata_update s).cells_buffers b k = s.cells_buffers b k) ∧
    (cellular_automata_update s).current_buffer = 1 - s.current_buffer ∧
    (cellular_automata_update s).current_buffer ≠ s.current_buffer ∧
    FUTURE_CELLS (cellular_automata_update s) = ACTIVE_CELLS s := by
  obtain ⟨hflag, hframe⟩ := update_frame s
  have hx : s.current_buffer ^^^ 1 = 1 - s.current_buffer := by
    rcases hcb with h | h <;> rw [h] <;> rfl
  have hne : 1 - s.current_buffer ≠ s.current_buffer := by omega
  rw [hx] at hflag hframe
  refine ⟨?_, ?_, hflag, ?_, ?_⟩
  · intro k
    rw [hframe _ (fun e => hne e.symm)]
  · intro b hb k
    rw [hframe b hb]
  · rw [hflag]; exact hne
  · unfold FUTURE_CELLS ACTIVE_CELLS
    rw [hflag, ← hx, xor_one_twice, hframe _ (by rw [← hx]; exact fun e => xor_one_ne _ e.symm)]

/-- Witness of C16: one step from the seeded blinker; word 156 of buffer 0,
which holds the three live cells, is unchanged and buffer 1 becomes active. -/
theorem update_keeps_active_buffer_witness :
    ((setup_oscillator zeroState).current_buffer = 0 ∨
      (setup_oscillator zeroState).current_buffer = 1) ∧
    (cellular_automata_update (setup_oscillator zeroState)).cells_buffers
        (setup_oscillator zeroState).current_buffer 156 =
      (setup_oscillator zeroState).cells_buffers (setup_oscillator zeroState).current_buffer 156 ∧
    (setup_oscillator zeroState).cells_buffers (setup_oscillator zeroState).current_buffer 156 =
      28672 ∧
    (cellular_automata_update (setup_oscillator zeroState)).current_buffer =
      1 - (setup_oscillator zeroState).current_buffer :=
  ⟨Or.inl rfl,
    (update_keeps_active_buffer (setup_oscillator zeroState) (Or.inl rfl)).1 156,
    by decide,
    (update_keeps_active_buffer (setup_oscillator zeroState) (Or.inl rfl)).2.2.1⟩

/-- C17: seeding is purely additive. For every prior state, after
`setup_oscillator` the cells (4,5), (5,5), (6,5) are alive and every other
cell has the state it had before; after `setup_ship` the cells (11,10),
(12,11), (10,12), (11,12), (12,12) are alive and every other cell has the
state it had before; hence after `cellular_automata_initalize`,
`setup_oscillator`, `setup_ship` the live cells are exactly those 8. -/
theorem seeding_is_additive (s : State) (x y : Int) (hx : 0 ≤ x ∧ x < 1000)
    (hy : 0 ≤ y ∧ y < 1000) :
    get_cell_state (setup_oscillator s) (get_cell_index x y) =
      (if (x, y) ∈ [((4 : Int), (5 : Int)), (5, 5), (6, 5)] then 1
       else get_cell_state s (get_cell_index x y)) ∧
    get_cell_state (setup_ship s) (get_cell_index x y) =
      (if (x, y) ∈ [((11 : Int), (10 : Int)), (12, 11), (10, 12), (11, 12), (12, 12)] then 1
       else get_cell_state s (get_cell_index x y)) ∧
    get_cell_state (setup_ship (setup_oscillator (cellular_automata_initalize s)))
        (get_cell_index x y) =
      (if (x, y) ∈ [((4 : Int), (5 : Int)), (5, 5), (6, 5), (11, 10), (12, 11), (10, 12),
        (11, 12), (12, 12)] then 1 else 0) := by
  refine ⟨setup_oscillator_cells s x y hx hy, setup_ship_cells s x y hx hy, ?_⟩
  rw [setup_ship_cells _ x y hx hy, setup_oscillator_cells _ x y hx hy,
    initalize_all_dead s _ (get_cell_index_range x y).1 (get_cell_index_range x y).2]
  simp only [List.mem_cons, List.not_mem_nil, or_false]
  by_cases h1 : (x, y) = (4, 5) <;> by_cases h2 : (x, y) = (5, 5) <;>
    by_cases h3 : (x, y) = (6, 5) <;> simp [h1, h2, h3]

/-- Witness of C17: on the full grid `setup_oscillator` leaves cell (0, 0)
alive, and after initialisation and both seeds cell (0, 0) is dead and cell
(12, 11) is alive. -/
theorem seeding_is_additive_witness :
    ((0 : Int) ≤ 0 ∧ (0 : Int) < 1000) ∧ ((0 : Int) ≤ 12 ∧ (12 : Int) < 1000) ∧
    ((0 : Int) ≤ 11 ∧ (11 : Int) < 1000) ∧
    get_cell_state (setup_oscillator fullState) (get_cell_index 0 0) = 1 ∧
    get_cell_state (setup_ship (setup_oscillator (cellular_automata_initalize fullState)))
      (get_cell_index 0 0) = 0 ∧
    get_cell_state (setup_ship (setup_oscillator (cellular_automata_initalize fullState)))
      (get_cell_index 12 11) = 1 :=
  ⟨⟨by decide, by decide⟩, ⟨by decide, by decide⟩, ⟨by decide, by decide⟩,
    ((seeding_is_additive fullState 0 0 ⟨by decide, by decide⟩ ⟨by decide, by decide⟩).1).trans
      (by decide),
    ((seeding_is_additive fullState 0 0 ⟨by decide, by decide⟩
      ⟨by decide, by decide⟩).2.2).trans (by decide),
    ((seeding_is_additive fullState 12 11 ⟨by decide, by decide⟩
      ⟨by decide, by decide⟩).2.2).trans (by decide)⟩

/-- C18: for every state, `cellular_automata_draw` adds to the calls issued
so far exactly one call of `DrawRectangle` for each `(x, y)` with
`0 ≤ x < 100` and `0 ≤ y < 100` (10000 calls, none for a cell outside this
viewport), with position `(10 * x, 10 * y)`, size 10 x 10 and colour
(0,0,0,255) when the cell is dead in the active buffer and (255,255,255,255)
when it is alive; and it leaves both buffers and `current_buffer` unchanged. -/
theorem draw_viewport (s : State) (calls : List DrawCall) :
    (cellular_automata_draw s calls).1 = s ∧
    (cellular_automata_draw s calls).2 = calls ++ viewportCalls s ∧
    (viewportCalls s).length = 10000 ∧
    (∀ x y : Nat, x < 100 → y < 100 →
      (⟨10 * x, 10 * y, 10, 10,
          if get_cell_state s (get_cell_index x y) = 1 then ⟨255, 255, 255, 255⟩
          else ⟨0, 0, 0, 255⟩⟩ : DrawCall) ∈ viewportCalls s ∧
      (viewportCalls s).countP
        (fun c => decide (c.posX = 10 * (x : Int) ∧ c.posY = 10 * (y : Int))) = 1) ∧
    (∀ c ∈ viewportCalls s, ∃ x y : Nat, x < 100 ∧ y < 100 ∧
      c = ⟨10 * x, 10 * y, 10, 10,
        if get_cell_state s (get_cell_index x y) = 1 then ⟨255, 255, 255, 255⟩
        else ⟨0, 0, 0, 255⟩⟩) := by
  refine ⟨by rw [draw_eq], by rw [draw_eq], length_viewportCalls s, ?_, ?_⟩
  · intro x y hx hy
    exact ⟨(mem_viewportCalls s _).2 ⟨y, hy, x, hx, rfl⟩, one_call_per_cell s x y hx hy⟩
  · intro c hc
    obtain ⟨y, hy, x, hx, h⟩ := (mem_viewportCalls s c).1 hc
    exact ⟨x, y, hx, hy, h.symm⟩

/-- Witness of C18: the frame of the seeded blinker; the call for the live
cell (5, 5) is white at (50, 50), the call for the dead cell (0, 0) is black
at (0, 0). -/
theorem draw_viewport_witness :
    ((5 : Nat) < 100) ∧ ((0 : Nat) < 100) ∧
    (⟨50, 50, 10, 10, ⟨255, 255, 255, 255⟩⟩ : DrawCall) ∈
      viewportCalls (setup_oscillator zeroState) ∧
    (⟨0, 0, 10, 10, ⟨0, 0, 0, 255⟩⟩ : DrawCall) ∈ viewportCalls (setup_oscillator zeroState) :=
  ⟨by decide, by decide,
    ((draw_viewport (setup_oscillator zeroState) []).2.2.2.1 5 5 (by decide) (by decide)).1,
    ((draw_viewport (setup_oscillator zeroState) []).2.2.2.1 0 0 (by decide) (by decide)).1⟩

/-- C19: the result of a step does not depend on what the future buffer held
before it: for two states with the same `current_buffer` in {0, 1} and
word-for-word equal active buffers, whatever their future buffers hold, the
active buffers after `cellular_automata_update` are equal word for word, in
all 31250 words (31250 * 32 = 1000000, so no bit is left unwritten). -/
theorem step_ignores_future_buffer (s t : State)
    (_hcb : s.current_buffer = 0 ∨ s.current_buffer = 1)
    (_hflag : t.current_buffer = s.current_buffer)
    (hact : ∀ k, k < CELLULAR_AUTOMATA_SIZE → ACTIVE_CELLS s k = ACTIVE_CELLS t k)
    (hs : WordsInRange s) (ht : WordsInRange t) :
    CELLULAR_AUTOMATA_SIZE * BITS_PER_INT = 1000000 ∧
    ∀ k, k < CELLULAR_AUTOMATA_SIZE →
      ACTIVE_CELLS (cellular_automata_update s) k =
        ACTIVE_CELLS (cellular_automata_update t) k := by
  have hsize : CELLULAR_AUTOMATA_SIZE = 31250 := by decide
  rw [hsize] at hact ⊢
  exact ⟨by decide, update_words_congr s t hact hs ht⟩

/-- Witness of C19: the cleared state and the cleared state whose future
buffer is full of stale bits; after a step their active words agree. -/
theorem step_ignores_future_buffer_witness :
    (zeroState.current_buffer = 0 ∨ zeroState.current_buffer = 1) ∧
    staleFutureState.current_buffer = zeroState.current_buffer ∧
    FUTURE_CELLS staleFutureState 0 = 4294967295 ∧ FUTURE_CELLS zeroState 0 = 0 ∧
    (∀ k, k < CELLULAR_AUTOMATA_SIZE →
      ACTIVE_CELLS zeroState k = ACTIVE_CELLS staleFutureState k) ∧
    WordsInRange zeroState ∧ WordsInRange staleFutureState ∧
    ACTIVE_CELLS (cellular_automata_update zeroState) 0 =
      ACTIVE_CELLS (cellular_automata_update staleFutureState) 0 :=
  ⟨Or.inl rfl, rfl, by decide, by decide, fun _ _ => rfl, zeroState_words,
    staleFutureState_words,
    (step_ignores_future_buffer zeroState staleFutureState (Or.inl rfl) rfl (fun _ _ => rfl)
      zeroState_words staleFutureState_words).2 0 (by decide)⟩

/-- C20: the comparison-based wrap agrees with the modulo-based indexing on
every argument the stepper can pass: `get_cell_index_fast x y =
get_cell_index x y` for all `x`, `y` in `[-1000, 2000)`, in particular at
`(cx + dx, cy + dy)` for every cell `(cx, cy)` of the grid and every offset
`(dx, dy)` of `NEIGHBORS_OFFSET`. -/
theorem get_cell_index_fast_agrees (x y : Int) (hx : -1000 ≤ x ∧ x < 2000)
    (hy : -1000 ≤ y ∧ y < 2000) :
    get_cell_index_fast x y = get_cell_index x y ∧
    (∀ cx cy : Int, 0 ≤ cx ∧ cx < 1000 → 0 ≤ cy ∧ cy < 1000 → ∀ d ∈ NEIGHBORS_OFFSET,
      get_cell_index_fast (cx + d.1) (cy + d.2) = get_cell_index (cx + d.1) (cy + d.2)) := by
  refine ⟨get_cell_index_fast_eq x y hx hy, ?_⟩
  intro cx cy hcx hcy d hd
  have hb := offset_bounds d hd
  exact get_cell_index_fast_eq _ _ (by omega) (by omega)

/-- Witness of C20: both ends of the range, and the upper-left neighbour of
cell (0, 0). -/
theorem get_cell_index_fast_agrees_witness :
    ((-1000 : Int) ≤ -1000 ∧ (-1000 : Int) < 2000) ∧ ((-1000 : Int) ≤ 1999 ∧ (1999 : Int) < 2000) ∧
    get_cell_index_fast (-1000) 1999 = get_cell_index (-1000) 1999 ∧
    get_cell_index_fast (-1000) 1999 = 999000 ∧
    get_cell_index_fast (0 + (-1)) (0 + (-1)) = get_cell_index (0 + (-1)) (0 + (-1)) :=
  ⟨⟨by decide, by decide⟩, ⟨by decide, by decide⟩,
    (get_cell_index_fast_agrees (-1000) 1999 ⟨by decide, by decide⟩ ⟨by decide, by decide⟩).1,
    by decide,
    (get_cell_index_fast_agrees (-1000) 1999 ⟨by decide, by decide⟩ ⟨by decide, by decide⟩).2
      0 0 ⟨by decide, by decide⟩ ⟨by decide, by decide⟩ (-1, -1) (by decide)⟩

end GameOfLife
